import Mathlib

/-
Verification of the ManageHub access-control and multisig-proposal engine
(contracts/access_control). The Rust module `AccessControlModule` is embedded
shallowly: persistent storage becomes an explicit `State` record, the ledger
timestamp and the external membership-token contract become an explicit `Env`,
and every fallible entry point returns `State × Except AccessControlError α`.
Writes performed before an error return persist in the returned state, exactly
as the sequence of `storage().set` calls in the source does (no rollback code
exists in the module itself). Machine integers are modelled as `Nat` with an
explicit `% 2^64` (resp. `% 2^32`) at each `u64` (resp. `u32`) addition;
`saturating_sub` on `u32` is `Nat` subtraction.
-/

namespace ManageHub

/-- Modulus of `u64` arithmetic. -/
def U64 : Nat := 18446744073709551616

/-- Modulus of `u32` arithmetic. -/
def U32 : Nat := 4294967296

/-- Account / contract identities (`soroban_sdk::Address`), abstracted to `Nat`. -/
abbrev Address := Nat

/-- Mirror of `types.rs::UserRole`: `Guest = 0 < Member = 1 < Admin = 2`. -/
inductive UserRole where
  | Guest
  | Member
  | Admin
deriving DecidableEq, Repr

/-- Discriminant order of `UserRole` (the derived `Ord` in the source). -/
def UserRole.rank : UserRole → Nat
  | .Guest => 0
  | .Member => 1
  | .Admin => 2

/-- Mirror of `UserRole::has_access`: `self >= required_role`. -/
def UserRole.has_access (r required_role : UserRole) : Bool :=
  required_role.rank ≤ r.rank

/-- Mirror of `types.rs::MembershipInfo`. -/
structure MembershipInfo where
  user : Address
  balance : Int
  has_membership : Bool
deriving DecidableEq, Repr

/-- Mirror of `types.rs::AccessControlConfig`. -/
structure AccessControlConfig where
  membership_token_contract : Option Address
  require_membership_for_roles : Bool
  min_token_balance : Int
  subscription_contract : Option Address
  enforce_tier_restrictions : Bool
deriving DecidableEq, Repr

/-- Mirror of the derived `Default` for `AccessControlConfig`. -/
def AccessControlConfig.default_config : AccessControlConfig :=
  { membership_token_contract := none
    require_membership_for_roles := false
    min_token_balance := 0
    subscription_contract := none
    enforce_tier_restrictions := false }

/-- Mirror of `types.rs::MultiSigConfig`. -/
structure MultiSigConfig where
  admins : List Address
  required_signatures : Nat
  critical_threshold : Nat
  emergency_threshold : Nat
  time_lock_duration : Nat
  max_pending_proposals : Nat
  proposal_expiry_duration : Nat
deriving DecidableEq, Repr

/-- Mirror of `types.rs::ProposalType`. -/
inductive ProposalType where
  | Standard
  | Critical
  | Emergency
  | TimeLocked
deriving DecidableEq, Repr

/-- Mirror of `types.rs::ProposalAction`. -/
inductive ProposalAction where
  | SetRole (user : Address) (role : UserRole)
  | UpdateConfig (config : AccessControlConfig)
  | AddAdmin (new_admin : Address)
  | RemoveAdmin (admin_to_remove : Address)
  | Pause
  | Unpause
  | TransferAdmin (new_admin : Address)
  | UpdateMultisigConfig (new_config : MultiSigConfig)
  | EmergencyPause (reason : String)
  | BatchBlacklist (users : List Address)
  | ScheduleUpgrade (target : Address) (time : Nat)
  | EmergencyAdminTransfer (new_admin : Address)
deriving DecidableEq, Repr

/-- Mirror of `types.rs::PendingProposal`. -/
structure PendingProposal where
  id : Nat
  proposer : Address
  action : ProposalAction
  proposal_type : ProposalType
  approvals : List Address
  rejections : List Address
  executed : Bool
  created_at : Nat
  expiry : Nat
  time_lock_until : Option Nat
  required_signatures : Nat
deriving DecidableEq, Repr

/-- Mirror of `types.rs::PendingAdminTransfer`. -/
structure PendingAdminTransfer where
  proposed_admin : Address
  proposer : Address
  expiry : Nat
deriving DecidableEq, Repr

/-- Mirror of `types.rs::ProposalStats`. -/
structure ProposalStats where
  total_created : Nat
  total_executed : Nat
  total_rejected : Nat
  total_expired : Nat
  pending_count : Nat
deriving DecidableEq, Repr

/-- Mirror of `errors.rs::AccessControlError`. -/
inductive AccessControlError where
  | Unauthorized
  | AdminRequired
  | InvalidRole
  | InsufficientRole
  | RoleAssignmentFailed
  | MembershipTokenNotSet
  | MembershipTokenCallFailed
  | InsufficientMembership
  | InvalidTokenBalance
  | NotInitialized
  | ConfigurationError
  | StorageError
  | InvalidAddress
  | RoleHierarchyViolation
  | MaxRolesExceeded
  | ContractPaused
  | MultisigNotEnabled
  | InsufficientApprovals
  | ProposalNotFound
  | ProposalAlreadyExecuted
  | ProposalExpired
  | TimeLockActive
  | AlreadyApproved
  | AlreadyRejected
  | CannotExecuteProposal
  | MaxProposalsReached
  | InvalidProposalType
  | InvalidMultisigConfig
  | ThresholdTooHigh
  | ThresholdTooLow
  | CannotRemoveLastAdmin
  | DuplicateAdmin
  | NotMultisigAdmin
  | ProposalRejected
deriving DecidableEq, Repr

/-- Mirror of `errors.rs::AccessControlResult`. -/
abbrev ACResult (α : Type) := Except AccessControlError α

deriving instance DecidableEq for Except

/-- Mirror of `ProposalType::requires_time_lock`. -/
def ProposalType.requires_time_lock : ProposalType → Bool
  | .TimeLocked => true
  | .Critical => true
  | _ => false

/-- Mirror of `ProposalAction::classify_type`. -/
def ProposalAction.classify_type : ProposalAction → ProposalType
  | .SetRole _ _ => .Standard
  | .UpdateConfig _ => .Critical
  | .AddAdmin _ => .Critical
  | .RemoveAdmin _ => .Critical
  | .Pause => .Critical
  | .Unpause => .Standard
  | .TransferAdmin _ => .Critical
  | .UpdateMultisigConfig _ => .Critical
  | .EmergencyPause _ => .Emergency
  | .BatchBlacklist _ => .Critical
  | .ScheduleUpgrade _ _ => .TimeLocked
  | .EmergencyAdminTransfer _ => .Emergency

/-- Mirror of `MultiSigConfig::validate`. -/
def MultiSigConfig.validate (c : MultiSigConfig) : Bool :=
  (!c.admins.isEmpty)
    && decide (0 < c.required_signatures)
    && decide (c.required_signatures ≤ c.admins.length)
    && decide (c.required_signatures ≤ c.critical_threshold)
    && decide (c.critical_threshold ≤ c.emergency_threshold)
    && decide (c.emergency_threshold ≤ c.admins.length)
    && decide (0 < c.time_lock_duration)
    && decide (0 < c.max_pending_proposals)
    && decide (0 < c.proposal_expiry_duration)

/-- Mirror of `MultiSigConfig::get_required_signatures`. -/
def MultiSigConfig.get_required_signatures (c : MultiSigConfig) :
    ProposalType → Nat
  | .Standard => c.required_signatures
  | .Critical => c.critical_threshold
  | .TimeLocked => c.critical_threshold
  | .Emergency => c.emergency_threshold

/-- Persistent storage of `AccessControlModule` (`DataKey` namespace), one field
per key family. Keys read with `unwrap_or` of a fixed default are folded into a
total field holding that default (`Paused`, `Initialized`, `Blacklisted`,
`AccessAttempts`, `ProposalCounter`, `PendingProposalsList`, `ProposalStats`,
`EmergencyMode`); observable behaviour is identical because every reader of
those keys applies the same default. -/
structure State where
  admin : Option Address
  roles : Address → Option UserRole
  config : Option AccessControlConfig
  initialized : Bool
  paused : Bool
  blacklisted : Address → Bool
  accessAttempts : Address → Nat
  multisig : Option MultiSigConfig
  proposals : Nat → Option PendingProposal
  proposalCounter : Nat
  pendingList : List Nat
  stats : ProposalStats
  emergencyMode : Bool
  pendingAdminTransfer : Option PendingAdminTransfer

/-- Ambient chain environment: the ledger timestamp and the external
membership-token contract (`balance_of contract user`; `none` models a failed
cross-contract call). -/
structure Env where
  timestamp : Nat
  balance_of : Address → Address → Option Int

/-- Point update of a storage map (a `storage().set` on one key). -/
def setFn {β : Type} (f : Nat → β) (k : Nat) (v : β) : Nat → β :=
  fun x => if x = k then v else f x

/-- State with no storage entries written yet. -/
def emptyState : State :=
  { admin := none
    roles := fun _ => none
    config := none
    initialized := false
    paused := false
    blacklisted := fun _ => false
    accessAttempts := fun _ => 0
    multisig := none
    proposals := fun _ => none
    proposalCounter := 0
    pendingList := []
    stats := ⟨0, 0, 0, 0, 0⟩
    emergencyMode := false
    pendingAdminTransfer := none }

/-- Mirror of `get_role`: stored role or `Guest`. -/
def get_role (s : State) (user : Address) : UserRole :=
  (s.roles user).getD .Guest

/-- Mirror of `is_admin`. -/
def is_admin (s : State) (user : Address) : Bool :=
  get_role s user = .Admin

/-- Mirror of `get_config`: stored config or the `Default`. -/
def get_config (s : State) : AccessControlConfig :=
  (s.config).getD AccessControlConfig.default_config

/-- Mirror of `require_admin`: committee membership if a multisig config
exists, otherwise the stored single-admin role. -/
def require_admin (s : State) (caller : Address) : ACResult Unit :=
  match s.multisig with
  | some cfg => if cfg.admins.contains caller then .ok () else .error .AdminRequired
  | none => if is_admin s caller then .ok () else .error .AdminRequired

/-- Mirror of `check_membership_token`: the external `balance_of` call either
returns a balance or fails the check with `MembershipTokenCallFailed`. -/
def check_membership_token (env : Env) (membership_contract user : Address) :
    ACResult MembershipInfo :=
  match env.balance_of membership_contract user with
  | some balance =>
      .ok { user := user, balance := balance, has_membership := 0 < balance }
  | none => .error .MembershipTokenCallFailed

/-- Mirror of `validate_role_assignment` (used by `set_role` and the `SetRole`
proposal arm): errors with `MembershipTokenNotSet` when policy requires a
membership token but none is configured. -/
def validate_role_assignment (env : Env) (s : State) (user : Address)
    (role : UserRole) : ACResult Unit :=
  let config := get_config s
  if config.require_membership_for_roles ∧ (role = .Member ∨ role = .Admin) then
    match config.membership_token_contract with
    | some membership_contract =>
        match check_membership_token env membership_contract user with
        | .error e => .error e
        | .ok info =>
            if info.balance < config.min_token_balance then
              .error .InsufficientMembership
            else .ok ()
    | none => .error .MembershipTokenNotSet
  else .ok ()

/-- Mirror of `validate_membership_access` (the `check_access` path): unlike
`validate_role_assignment`, a missing membership contract is not an error. -/
def validate_membership_access (env : Env) (s : State) (user : Address)
    (required_role : UserRole) : ACResult Unit :=
  let config := get_config s
  if config.require_membership_for_roles ∧
      (required_role = .Member ∨ required_role = .Admin) then
    match config.membership_token_contract with
    | some membership_contract =>
        match check_membership_token env membership_contract user with
        | .error e => .error e
        | .ok info =>
            if info.balance < config.min_token_balance then
              .error .InsufficientMembership
            else .ok ()
    | none => .ok ()
  else .ok ()

/-- Mirror of `log_access_attempt`: bumps the per-user `AccessAttempts`
counter (`u32`); the success flag only feeds the emitted event. -/
def log_access_attempt (s : State) (user : Address) (_success : Bool) : State :=
  { s with accessAttempts :=
      setFn s.accessAttempts user ((s.accessAttempts user + 1) % U32) }

/-- Mirror of `check_access`. -/
def check_access (env : Env) (s : State) (user : Address)
    (required_role : UserRole) : State × ACResult Bool :=
  if !s.initialized then (s, .error .NotInitialized)
  else if s.paused then (s, .error .ContractPaused)
  else if s.blacklisted user then (s, .ok false)
  else
    let user_role := get_role s user
    if !user_role.has_access required_role then
      (log_access_attempt s user false, .ok false)
    else
      match validate_membership_access env s user required_role with
      | .ok _ => (log_access_attempt s user true, .ok true)
      | .error _ => (log_access_attempt s user false, .ok false)

/-- Mirror of `set_role`. -/
def set_role (env : Env) (s : State) (caller user : Address) (role : UserRole) :
    State × ACResult Unit :=
  if !s.initialized then (s, .error .NotInitialized)
  else if s.paused then (s, .error .ContractPaused)
  else if s.blacklisted user then (s, .error .Unauthorized)
  else
    match require_admin s caller with
    | .error e => (s, .error e)
    | .ok _ =>
        match validate_role_assignment env s user role with
        | .error e => (s, .error e)
        | .ok _ => ({ s with roles := setFn s.roles user (some role) }, .ok ())

/-- Mirror of `remove_role`. -/
def remove_role (s : State) (caller user : Address) : State × ACResult Unit :=
  match require_admin s caller with
  | .error e => (s, .error e)
  | .ok _ =>
      if (match s.admin with | some admin => user == admin | none => false) then
        (s, .error .RoleHierarchyViolation)
      else if caller = user ∧ get_role s user = .Admin then
        (s, .error .RoleHierarchyViolation)
      else ({ s with roles := setFn s.roles user (some .Guest) }, .ok ())

/-- Mirror of `blacklist_user`. -/
def blacklist_user (s : State) (caller user : Address) : State × ACResult Unit :=
  match require_admin s caller with
  | .error e => (s, .error e)
  | .ok _ => ({ s with blacklisted := setFn s.blacklisted user true }, .ok ())

/-- Mirror of `unblacklist_user` (a storage `remove`, observationally the
`false` default). -/
def unblacklist_user (s : State) (caller user : Address) :
    State × ACResult Unit :=
  match require_admin s caller with
  | .error e => (s, .error e)
  | .ok _ => ({ s with blacklisted := setFn s.blacklisted user false }, .ok ())

/-- Mirror of `update_config` (single-admin mode only). -/
def update_config (s : State) (caller : Address) (config : AccessControlConfig) :
    State × ACResult Unit :=
  if s.multisig.isSome then (s, .error .AdminRequired)
  else
    match require_admin s caller with
    | .error e => (s, .error e)
    | .ok _ => ({ s with config := some config }, .ok ())

/-- Mirror of `pause` (single-admin mode only). -/
def pause (s : State) (caller : Address) : State × ACResult Unit :=
  if s.multisig.isSome then (s, .error .AdminRequired)
  else
    match require_admin s caller with
    | .error e => (s, .error e)
    | .ok _ => ({ s with paused := true }, .ok ())

/-- Mirror of `unpause` (single-admin mode only). -/
def unpause (s : State) (caller : Address) : State × ACResult Unit :=
  if s.multisig.isSome then (s, .error .AdminRequired)
  else
    match require_admin s caller with
    | .error e => (s, .error e)
    | .ok _ => ({ s with paused := false }, .ok ())

/-- Mirror of the duplicate-admin double loop in `initialize_multisig`: true
iff some pair of entries is equal. -/
def hasDuplicate : List Address → Bool
  | [] => false
  | a :: rest => rest.contains a || hasDuplicate rest

/-- Mirror of `AccessControlModule::initialize`. -/
def init_contract (s : State) (admin : Address)
    (config : Option AccessControlConfig) : State × ACResult Unit :=
  if s.initialized then (s, .error .ConfigurationError)
  else
    ({ s with
        admin := some admin
        roles := setFn s.roles admin (some .Admin)
        config := some (config.getD AccessControlConfig.default_config)
        initialized := true
        paused := false
        proposalCounter := 0 }, .ok ())

/-- Mirror of `AccessControlModule::initialize_multisig`. -/
def init_multisig (s : State) (admins : List Address)
    (required_signatures : Nat) (config : Option AccessControlConfig) :
    State × ACResult Unit :=
  if s.initialized then (s, .error .ConfigurationError)
  else if admins.isEmpty ∨ required_signatures = 0 ∨
      admins.length < required_signatures then
    (s, .error .InvalidAddress)
  else if hasDuplicate admins then (s, .error .DuplicateAdmin)
  else
    let critical_threshold := min (required_signatures + 1) admins.length
    let emergency_threshold := min (critical_threshold + 1) admins.length
    let multisig_config : MultiSigConfig :=
      { admins := admins
        required_signatures := required_signatures
        critical_threshold := critical_threshold
        emergency_threshold := emergency_threshold
        time_lock_duration := 86400
        max_pending_proposals := 50
        proposal_expiry_duration := 604800 }
    if !multisig_config.validate then (s, .error .InvalidMultisigConfig)
    else
      ({ s with
          multisig := some multisig_config
          roles := admins.foldl (fun r a => setFn r a (some .Admin)) s.roles
          config := some (config.getD AccessControlConfig.default_config)
          initialized := true
          paused := false
          proposalCounter := 0
          stats := ⟨0, 0, 0, 0, 0⟩
          pendingList := [] }, .ok ())

/-- Mirror of `remove_from_pending_list`: rebuild the index without the id. -/
def remove_from_pending_list (s : State) (proposal_id : Nat) : State :=
  { s with pendingList := s.pendingList.filter (fun x => x != proposal_id) }

/-- Mirror of `cleanup_expired_proposal`: drop the proposal from the index and
storage, bump `total_expired` (`u64`), saturating-decrement `pending_count`. -/
def cleanup_expired_proposal (s : State) (proposal_id : Nat) : State :=
  let s := remove_from_pending_list s proposal_id
  let s := { s with proposals := setFn s.proposals proposal_id none }
  { s with stats :=
      { s.stats with
          total_expired := (s.stats.total_expired + 1) % U64
          pending_count := s.stats.pending_count - 1 } }

/-- Time-lock guard of `execute_proposal`: active while `now < time_lock_until`. -/
def timeLockActive (env : Env) (p : PendingProposal) : Bool :=
  match p.time_lock_until with
  | some t => env.timestamp < t
  | none => false

/-- Time-lock guard of `approve_proposal`: passed once `now >= time_lock_until`. -/
def timeLockPassed (env : Env) (p : PendingProposal) : Bool :=
  match p.time_lock_until with
  | some t => t ≤ env.timestamp
  | none => true

/-- Action dispatch of `execute_proposal` (the `match proposal.action` block).
Every failing arm fails before its first write. -/
def applyAction (env : Env) (s : State) : ProposalAction → State × ACResult Unit
  | .SetRole user role =>
      match validate_role_assignment env s user role with
      | .error e => (s, .error e)
      | .ok _ => ({ s with roles := setFn s.roles user (some role) }, .ok ())
  | .UpdateConfig config => ({ s with config := some config }, .ok ())
  | .Pause => ({ s with paused := true }, .ok ())
  | .Unpause => ({ s with paused := false }, .ok ())
  | .UpdateMultisigConfig new_config =>
      if !new_config.validate then (s, .error .InvalidMultisigConfig)
      else ({ s with multisig := some new_config }, .ok ())
  | .EmergencyPause _ =>
      ({ s with paused := true, emergencyMode := true }, .ok ())
  | .BatchBlacklist users =>
      ({ s with blacklisted :=
          users.foldl (fun bl u => setFn bl u true) s.blacklisted }, .ok ())
  | .AddAdmin new_admin =>
      match s.multisig with
      | some cfg =>
          if cfg.admins.contains new_admin then (s, .error .DuplicateAdmin)
          else
            ({ s with
                multisig := some { cfg with admins := cfg.admins ++ [new_admin] }
                roles := setFn s.roles new_admin (some .Admin) }, .ok ())
      | none => (s, .ok ())
  | .RemoveAdmin admin_to_remove =>
      match s.multisig with
      | some cfg =>
          if cfg.admins.length ≤ cfg.emergency_threshold then
            (s, .error .CannotRemoveLastAdmin)
          else
            ({ s with
                multisig := some
                  { cfg with
                      admins := cfg.admins.filter (fun a => a != admin_to_remove) }
                roles := setFn s.roles admin_to_remove (some .Guest) }, .ok ())
      | none => (s, .ok ())
  | .TransferAdmin _ => (s, .error .InvalidProposalType)
  | .ScheduleUpgrade _ _ => (s, .error .InvalidProposalType)
  | .EmergencyAdminTransfer _ => (s, .error .InvalidProposalType)

/-- Mirror of `execute_proposal`. The `executed` flag is persisted before the
action dispatch; on success the proposal leaves the pending index and the
statistics are updated (`u64` add, saturating `u32` sub). -/
def execute_proposal (env : Env) (s : State) (proposal_id : Nat) :
    State × ACResult Unit :=
  match s.proposals proposal_id with
  | none => (s, .error .ProposalNotFound)
  | some p =>
      if p.executed then (s, .error .ProposalAlreadyExecuted)
      else if p.expiry < env.timestamp then
        (cleanup_expired_proposal s proposal_id, .error .ProposalExpired)
      else if timeLockActive env p then (s, .error .TimeLockActive)
      else if p.approvals.length < p.required_signatures then
        (s, .error .InsufficientApprovals)
      else
        let p1 := { p with executed := true }
        let s1 := { s with proposals := setFn s.proposals proposal_id (some p1) }
        match applyAction env s1 p1.action with
        | (s2, .error e) => (s2, .error e)
        | (s2, .ok _) =>
            let s3 := remove_from_pending_list s2 proposal_id
            ({ s3 with stats :=
                { s3.stats with
                    total_executed := (s3.stats.total_executed + 1) % U64
                    pending_count := s3.stats.pending_count - 1 } }, .ok ())

/-- Mirror of `create_proposal`. -/
def create_proposal (env : Env) (s : State) (proposer : Address)
    (action : ProposalAction) : State × ACResult Nat :=
  match require_admin s proposer with
  | .error e => (s, .error e)
  | .ok _ =>
      match s.multisig with
      | none => (s, .error .MultisigNotEnabled)
      | some multisig_config =>
          if multisig_config.max_pending_proposals ≤ s.stats.pending_count then
            (s, .error .MaxProposalsReached)
          else
            let proposal_id := s.proposalCounter
            let proposal_type := action.classify_type
            let required_signatures :=
              multisig_config.get_required_signatures proposal_type
            let current_time := env.timestamp
            let expiry :=
              (current_time + multisig_config.proposal_expiry_duration) % U64
            let time_lock_until :=
              if proposal_type.requires_time_lock then
                some ((current_time + multisig_config.time_lock_duration) % U64)
              else none
            let new_proposal : PendingProposal :=
              { id := proposal_id
                proposer := proposer
                action := action
                proposal_type := proposal_type
                approvals := [proposer]
                rejections := []
                executed := false
                created_at := current_time
                expiry := expiry
                time_lock_until := time_lock_until
                required_signatures := required_signatures }
            let s := { s with
                proposals := setFn s.proposals proposal_id (some new_proposal)
                proposalCounter := (proposal_id + 1) % U64
                pendingList := s.pendingList ++ [proposal_id]
                stats := { s.stats with
                    total_created := (s.stats.total_created + 1) % U64
                    pending_count := (s.stats.pending_count + 1) % U32 } }
            if time_lock_until = none ∧
                required_signatures ≤ new_proposal.approvals.length then
              match execute_proposal env s proposal_id with
              | (s2, .error e) => (s2, .error e)
              | (s2, .ok _) => (s2, .ok proposal_id)
            else (s, .ok proposal_id)

/-- Mirror of `approve_proposal`. -/
def approve_proposal (env : Env) (s : State) (approver : Address)
    (proposal_id : Nat) : State × ACResult Unit :=
  match require_admin s approver with
  | .error e => (s, .error e)
  | .ok _ =>
      match s.proposals proposal_id with
      | none => (s, .error .ProposalNotFound)
      | some p =>
          if p.executed then (s, .error .ProposalAlreadyExecuted)
          else if p.expiry < env.timestamp then
            (cleanup_expired_proposal s proposal_id, .error .ProposalExpired)
          else if p.approvals.contains approver then (s, .error .AlreadyApproved)
          else if p.rejections.contains approver then (s, .error .AlreadyRejected)
          else
            let p1 := { p with approvals := p.approvals ++ [approver] }
            let s1 :=
              { s with proposals := setFn s.proposals proposal_id (some p1) }
            let can_execute := p1.required_signatures ≤ p1.approvals.length
            if can_execute ∧ timeLockPassed env p1 then
              execute_proposal env s1 proposal_id
            else (s1, .ok ())

/-- Mirror of `reject_proposal`. -/
def reject_proposal (env : Env) (s : State) (rejecter : Address)
    (proposal_id : Nat) : State × ACResult Unit :=
  match require_admin s rejecter with
  | .error e => (s, .error e)
  | .ok _ =>
      match s.proposals proposal_id with
      | none => (s, .error .ProposalNotFound)
      | some p =>
          if p.executed then (s, .error .ProposalAlreadyExecuted)
          else if p.expiry < env.timestamp then
            (cleanup_expired_proposal s proposal_id, .error .ProposalExpired)
          else if p.rejections.contains rejecter then (s, .error .AlreadyRejected)
          else if p.approvals.contains rejecter then (s, .error .AlreadyApproved)
          else
            let p1 := { p with rejections := p.rejections ++ [rejecter] }
            match s.multisig with
            | none => (s, .error .MultisigNotEnabled)
            | some multisig_config =>
                let rejection_threshold :=
                  max (multisig_config.admins.length / 3) 1
                if rejection_threshold < p1.rejections.length then
                  let s2 := remove_from_pending_list s proposal_id
                  let s3 :=
                    { s2 with proposals := setFn s2.proposals proposal_id none }
                  ({ s3 with stats :=
                      { s3.stats with
                          total_rejected := (s3.stats.total_rejected + 1) % U64
                          pending_count := s3.stats.pending_count - 1 } },
                    .error .ProposalRejected)
                else
                  ({ s with
                      proposals := setFn s.proposals proposal_id (some p1) },
                    .ok ())

/-- Mirror of `cancel_proposal`: proposer-only withdrawal; decrements
`pending_count` without touching any terminal counter. -/
def cancel_proposal (s : State) (proposer : Address) (proposal_id : Nat) :
    State × ACResult Unit :=
  match s.proposals proposal_id with
  | none => (s, .error .ProposalNotFound)
  | some p =>
      if p.proposer ≠ proposer then (s, .error .Unauthorized)
      else if p.executed then (s, .error .ProposalAlreadyExecuted)
      else
        let s2 := remove_from_pending_list s proposal_id
        let s3 := { s2 with proposals := setFn s2.proposals proposal_id none }
        ({ s3 with stats :=
            { s3.stats with pending_count := s3.stats.pending_count - 1 } },
          .ok ())

/-- Mirror of `get_proposal`. -/
def get_proposal (s : State) (proposal_id : Nat) : Option PendingProposal :=
  s.proposals proposal_id

/-- One iteration of the `cleanup_expired_proposals` loop: tear the entry down
when it is stored, expired and unexecuted, else leave the accumulator alone. -/
def cleanup_step (env : Env) (acc : State × Nat) (proposal_id : Nat) :
    State × Nat :=
  match acc.1.proposals proposal_id with
  | some p =>
      if p.expiry < env.timestamp ∧ p.executed = false then
        (cleanup_expired_proposal acc.1 proposal_id, (acc.2 + 1) % U32)
      else acc
  | none => acc

/-- Mirror of `cleanup_expired_proposals`: sweep a snapshot of the pending
index, tearing down every expired, unexecuted entry. -/
def cleanup_expired_proposals (env : Env) (s : State) : State × ACResult Nat :=
  let swept := s.pendingList.foldl (cleanup_step env) (s, 0)
  (swept.1, .ok swept.2)

/-- Mirror of `deactivate_emergency_mode` (single-admin mode only). -/
def deactivate_emergency_mode (s : State) (caller : Address) :
    State × ACResult Unit :=
  match require_admin s caller with
  | .error e => (s, .error e)
  | .ok _ =>
      if s.multisig.isSome then (s, .error .AdminRequired)
      else ({ s with emergencyMode := false }, .ok ())

/-- Mirror of `require_access`: `check_access` - whose `Ok(false)` paths may
already have logged an access attempt - followed by `InsufficientRole` when
access is denied. -/
def require_access (env : Env) (s : State) (user : Address)
    (required_role : UserRole) : State × ACResult Unit :=
  match check_access env s user required_role with
  | (s2, .error e) => (s2, .error e)
  | (s2, .ok b) => if b then (s2, .ok ()) else (s2, .error .InsufficientRole)

/-- Mirror of `propose_admin_transfer` (single-admin mode only). -/
def propose_admin_transfer (env : Env) (s : State)
    (current_admin new_admin : Address) : State × ACResult Unit :=
  match require_admin s current_admin with
  | .error e => (s, .error e)
  | .ok _ =>
      if current_admin = new_admin then (s, .error .InvalidAddress)
      else if s.multisig.isSome then (s, .error .InvalidAddress)
      else
        ({ s with
            pendingAdminTransfer :=
              some { proposed_admin := new_admin
                     proposer := current_admin
                     expiry := (env.timestamp + 86400) % U64 } },
          .ok ())

/-- Mirror of `accept_admin_transfer`. -/
def accept_admin_transfer (env : Env) (s : State) (new_admin : Address) :
    State × ACResult Unit :=
  match s.pendingAdminTransfer with
  | none => (s, .error .InvalidAddress)
  | some pt =>
      if pt.proposed_admin ≠ new_admin then (s, .error .Unauthorized)
      else if pt.expiry < env.timestamp then (s, .error .InvalidAddress)
      else
        match s.admin with
        | none => (s, .error .AdminRequired)
        | some old_admin =>
            ({ s with
                admin := some new_admin
                roles := setFn (setFn s.roles new_admin (some .Admin))
                  old_admin (some .Guest)
                pendingAdminTransfer := none }, .ok ())

/-- Mirror of `cancel_admin_transfer`. -/
def cancel_admin_transfer (s : State) (current_admin : Address) :
    State × ACResult Unit :=
  match require_admin s current_admin with
  | .error e => (s, .error e)
  | .ok _ =>
      match s.pendingAdminTransfer with
      | none => (s, .error .InvalidAddress)
      | some pt =>
          if pt.proposer ≠ current_admin then (s, .error .Unauthorized)
          else ({ s with pendingAdminTransfer := none }, .ok ())

/-! ### Invariants and the step relation -/

/-- The statistics identity of the spec,
`pending_count == total_created − total_executed − total_rejected − total_expired`,
written additively so that it is exact over `Nat`. -/
def stats_identity (st : ProposalStats) : Prop :=
  st.total_created =
    st.total_executed + st.total_rejected + st.total_expired + st.pending_count

/-- Consistency of the proposal book-keeping: the statistics identity, the
pending index agreeing with `pending_count`, no duplicate index entries, every
live (stored, unexecuted) proposal being indexed, every indexed id being
stored, and ids at or above the counter being unused. -/
def StateInv (s : State) : Prop :=
  stats_identity s.stats ∧
  s.stats.pending_count = s.pendingList.length ∧
  s.pendingList.Nodup ∧
  (∀ pid p, s.proposals pid = some p → p.executed = false → pid ∈ s.pendingList) ∧
  (∀ pid, pid ∈ s.pendingList → (s.proposals pid).isSome) ∧
  (∀ pid, s.proposalCounter ≤ pid → s.proposals pid = none)

/-- Absence of machine-integer wraparound in the counters touched by one
proposal-engine operation. -/
def NoOverflow (s : State) : Prop :=
  s.stats.total_created + 1 < U64 ∧
  s.stats.total_executed + 1 < U64 ∧
  s.stats.total_rejected + 1 < U64 ∧
  s.stats.total_expired + s.pendingList.length + 1 < U64 ∧
  s.stats.pending_count + 1 < U32 ∧
  s.proposalCounter + 1 < U64

/-- Integrity of the vote sets of every stored proposal: no duplicate
approvals, no duplicate rejections, approvals disjoint from rejections. -/
def VoteInv (s : State) : Prop :=
  ∀ pid p, s.proposals pid = some p →
    p.approvals.Nodup ∧ p.rejections.Nodup ∧
    ∀ a, a ∈ p.approvals → a ∉ p.rejections

/-- One call to any state-mutating public entry point of the module. -/
inductive Step : Env → State → State → Prop where
  | init (env : Env) (s : State) (admin : Address)
      (config : Option AccessControlConfig) :
      Step env s (init_contract s admin config).1
  | initMs (env : Env) (s : State) (admins : List Address) (req : Nat)
      (config : Option AccessControlConfig) :
      Step env s (init_multisig s admins req config).1
  | setRole (env : Env) (s : State) (caller user : Address) (role : UserRole) :
      Step env s (set_role env s caller user role).1
  | rmRole (env : Env) (s : State) (caller user : Address) :
      Step env s (remove_role s caller user).1
  | checkAcc (env : Env) (s : State) (user : Address) (role : UserRole) :
      Step env s (check_access env s user role).1
  | blacklist (env : Env) (s : State) (caller user : Address) :
      Step env s (blacklist_user s caller user).1
  | unblacklist (env : Env) (s : State) (caller user : Address) :
      Step env s (unblacklist_user s caller user).1
  | updCfg (env : Env) (s : State) (caller : Address)
      (config : AccessControlConfig) :
      Step env s (update_config s caller config).1
  | doPause (env : Env) (s : State) (caller : Address) :
      Step env s (pause s caller).1
  | doUnpause (env : Env) (s : State) (caller : Address) :
      Step env s (unpause s caller).1
  | create (env : Env) (s : State) (proposer : Address)
      (action : ProposalAction) :
      Step env s (create_proposal env s proposer action).1
  | approve (env : Env) (s : State) (approver : Address) (pid : Nat) :
      Step env s (approve_proposal env s approver pid).1
  | reject (env : Env) (s : State) (rejecter : Address) (pid : Nat) :
      Step env s (reject_proposal env s rejecter pid).1
  | execute (env : Env) (s : State) (pid : Nat) :
      Step env s (execute_proposal env s pid).1
  | cancel (env : Env) (s : State) (proposer : Address) (pid : Nat) :
      Step env s (cancel_proposal s proposer pid).1
  | cleanup (env : Env) (s : State) :
      Step env s (cleanup_expired_proposals env s).1
  | deactivateEmergency (env : Env) (s : State) (caller : Address) :
      Step env s (deactivate_emergency_mode s caller).1

/-! ### Concrete states used by witnesses and counterexamples -/

/-- A ledger environment at time 1000 whose membership-token calls fail. -/
def envT : Env := ⟨1000, fun _ _ => none⟩

/-- A ledger environment past the 7-day expiry of proposals created at 0. -/
def envLate : Env := ⟨700000, fun _ _ => none⟩

/-- A 3-member committee with `emergency_threshold = 3`. -/
def cfg3 : MultiSigConfig :=
  { admins := [1, 2, 3]
    required_signatures := 2
    critical_threshold := 2
    emergency_threshold := 3
    time_lock_duration := 86400
    max_pending_proposals := 50
    proposal_expiry_duration := 604800 }

/-- A 4-member committee with `emergency_threshold = 3`. -/
def cfg4 : MultiSigConfig :=
  { admins := [1, 2, 3, 4]
    required_signatures := 2
    critical_threshold := 3
    emergency_threshold := 3
    time_lock_duration := 86400
    max_pending_proposals := 50
    proposal_expiry_duration := 604800 }

/-- A fully approved `RemoveAdmin 3` proposal whose time-lock has passed. -/
def propRemove : PendingProposal :=
  { id := 0
    proposer := 1
    action := .RemoveAdmin 3
    proposal_type := .Critical
    approvals := [1, 2]
    rejections := []
    executed := false
    created_at := 0
    expiry := 604800
    time_lock_until := some 100
    required_signatures := 2 }

/-- Builds the canonical single-proposal committee state over `cfg3`. -/
def mkState1 (cfg : MultiSigConfig) (p : PendingProposal) : State :=
  { emptyState with
      initialized := true
      multisig := some cfg
      proposals := setFn emptyState.proposals 0 (some p)
      proposalCounter := 1
      pendingList := [0]
      stats := ⟨1, 0, 0, 0, 1⟩ }

/-- State whose only proposal is `propRemove` over the 3-member committee:
removing one member would shrink it below `emergency_threshold = 3`. -/
def stRemove : State := mkState1 cfg3 propRemove

/-- A fully approved `RemoveAdmin 4` over the 4-member committee: removal
shrinks the committee to exactly `emergency_threshold = 3`. -/
def propRemoveEdge : PendingProposal :=
  { propRemove with
      action := .RemoveAdmin 4
      approvals := [1, 2, 3]
      required_signatures := 3 }

/-- State whose only proposal is `propRemoveEdge` over `cfg4`. -/
def stRemoveEdge : State := mkState1 cfg4 propRemoveEdge

/-- A fully approved `RemoveAdmin 9` over `cfg4`, where 9 is not a member. -/
def propRemoveOutsider : PendingProposal :=
  { propRemoveEdge with action := .RemoveAdmin 9, time_lock_until := none }

/-- State whose only proposal is `propRemoveOutsider` over `cfg4`. -/
def stRemoveOutsider : State := mkState1 cfg4 propRemoveOutsider

/-- A fully approved `TransferAdmin 5` proposal (an action the execution
dispatch does not handle). -/
def propTransfer : PendingProposal :=
  { propRemove with action := .TransferAdmin 5, time_lock_until := none }

/-- State whose only proposal is `propTransfer` over `cfg3`. -/
def stTransfer : State := mkState1 cfg3 propTransfer

/-- A standard `SetRole` proposal approved by 1, rejected by 2, needing 2. -/
def propVoted : PendingProposal :=
  { id := 0
    proposer := 1
    action := .SetRole 5 .Member
    proposal_type := .Standard
    approvals := [1]
    rejections := [2]
    executed := false
    created_at := 0
    expiry := 604800
    time_lock_until := none
    required_signatures := 2 }

/-- State whose only proposal is `propVoted` over `cfg3`. -/
def stVoted : State := mkState1 cfg3 propVoted

/-- A standard proposal with one approval out of a required three. -/
def propNeedsThree : PendingProposal :=
  { propVoted with rejections := [], required_signatures := 3 }

/-- State whose only proposal is `propNeedsThree` over `cfg3`. -/
def stNeedsThree : State := mkState1 cfg3 propNeedsThree

/-- A fully approved `Pause` proposal with no time-lock left to wait for. -/
def propPause : PendingProposal :=
  { propVoted with action := .Pause, approvals := [1, 2], rejections := [] }

/-- State whose only proposal is `propPause` over `cfg3`. -/
def stPause : State := mkState1 cfg3 propPause

/-- The two-admin committee state produced by `initialize_multisig`. -/
def stMsInit : State := (init_multisig emptyState [1, 2] 2 none).1

/-- `stMsInit` after admin 1 creates a standard `SetRole` proposal (1 of 2
approvals, so it is not auto-executed). -/
def stCreated : State := (create_proposal envT stMsInit 1 (.SetRole 5 .Member)).1

/-- An initialized single-admin state in which account 7 is blacklisted. -/
def stAccess : State :=
  { emptyState with
      initialized := true
      blacklisted := setFn emptyState.blacklisted 7 true }

/-! ### Helper lemmas -/

theorem contains_false_of_not_mem {l : List Nat} {a : Nat} (h : a ∉ l) :
    l.contains a = false := by simpa using h

theorem contains_true_of_mem {l : List Nat} {a : Nat} (h : a ∈ l) :
    l.contains a = true := by simpa using h

theorem not_mem_of_contains_false {l : List Nat} {a : Nat}
    (h : l.contains a = false) : a ∉ l := by simpa using h

theorem mem_filter_ne {l : List Nat} {a x : Nat} :
    x ∈ l.filter (fun y => y != a) ↔ x ∈ l ∧ x ≠ a := by
  simp [List.mem_filter]

theorem filter_ne_of_not_mem {l : List Nat} {a : Nat} (ha : a ∉ l) :
    l.filter (fun y => y != a) = l := by
  rw [List.filter_eq_self]
  intro b hb
  simp
  rintro rfl
  exact ha hb

theorem filter_ne_length :
    ∀ (l : List Nat) (a : Nat), l.Nodup → a ∈ l →
      (l.filter (fun y => y != a)).length + 1 = l.length
  | [], a, _, ha => absurd ha (List.not_mem_nil a)
  | b :: t, a, hnd, ha => by
    rw [List.nodup_cons] at hnd
    by_cases hba : b = a
    · subst hba
      rw [List.filter_cons_of_neg (by simp)]
      rw [filter_ne_of_not_mem hnd.1]
      simp
    · have hat : a ∈ t := by
        rcases List.mem_cons.mp ha with h | h
        · exact absurd h.symm hba
        · exact h
      rw [List.filter_cons_of_pos (by simp [hba])]
      have := filter_ne_length t a hnd.2 hat
      simp only [List.length_cons]
      omega

theorem filter_ne_nodup {l : List Nat} (a : Nat) (h : l.Nodup) :
    (l.filter (fun y => y != a)).Nodup :=
  h.filter _

theorem nodup_concat_of_not_mem {l : List Nat} {a : Nat} (hnd : l.Nodup)
    (ha : a ∉ l) : (l ++ [a]).Nodup := by
  rw [List.nodup_append]
  refine ⟨hnd, List.nodup_singleton a, ?_⟩
  intro x hx hx2
  rw [List.mem_singleton] at hx2
  subst hx2
  exact ha hx

theorem applyAction_fields (env : Env) (s : State) (a : ProposalAction) :
    (applyAction env s a).1.proposals = s.proposals ∧
    (applyAction env s a).1.pendingList = s.pendingList ∧
    (applyAction env s a).1.stats = s.stats ∧
    (applyAction env s a).1.proposalCounter = s.proposalCounter := by
  cases a <;> simp only [applyAction] <;> (repeat' split) <;> simp

theorem applyAction_error_eq {env : Env} {s : State} {a : ProposalAction}
    {e : AccessControlError} (h : (applyAction env s a).2 = .error e) :
    (applyAction env s a).1 = s := by
  cases a <;> simp only [applyAction] at h ⊢ <;> (repeat' split at h) <;>
    first | rfl | simp_all

theorem execute_ready_eq {env : Env} {s : State} {pid : Nat} {p : PendingProposal}
    (hp : s.proposals pid = some p) (hex : p.executed = false)
    (hnx : ¬ p.expiry < env.timestamp) (htl : timeLockActive env p = false)
    (hsig : p.required_signatures ≤ p.approvals.length) :
    execute_proposal env s pid =
      (match applyAction env
          { s with proposals := setFn s.proposals pid (some { p with executed := true }) }
          p.action with
       | (s2, .error e) => (s2, .error e)
       | (s2, .ok _) =>
          (let s3 := remove_from_pending_list s2 pid
           ({ s3 with stats := { s3.stats with
               total_executed := (s3.stats.total_executed + 1) % U64
               pending_count := s3.stats.pending_count - 1 } }, .ok ()))) := by
  unfold execute_proposal
  rw [hp]
  simp only [hex, htl, hnx, Nat.not_lt.mpr hsig, Bool.false_eq_true, if_false,
    ite_false]

theorem execute_ready_proposals {env : Env} {s : State} {pid : Nat}
    {p : PendingProposal}
    (hp : s.proposals pid = some p) (hex : p.executed = false)
    (hnx : ¬ p.expiry < env.timestamp) (htl : timeLockActive env p = false)
    (hsig : p.required_signatures ≤ p.approvals.length) :
    ((execute_proposal env s pid).1).proposals =
      setFn s.proposals pid (some { p with executed := true }) := by
  rw [execute_ready_eq hp hex hnx htl hsig]
  rcases hAp : applyAction env
      { s with proposals := setFn s.proposals pid (some { p with executed := true }) }
      p.action with ⟨s2, r2⟩
  have hps := (applyAction_fields env
      { s with proposals := setFn s.proposals pid (some { p with executed := true }) }
      p.action).1
  rw [hAp] at hps
  cases r2 with
  | error e => exact hps
  | ok a => exact hps

theorem applyAction_removeAdmin {env : Env} {s : State} {cfg : MultiSigConfig}
    {x : Address} (hms : s.multisig = some cfg) :
    applyAction env s (.RemoveAdmin x) =
      if cfg.admins.length ≤ cfg.emergency_threshold then
        (s, .error .CannotRemoveLastAdmin)
      else
        ({ s with
            multisig := some
              { cfg with admins := cfg.admins.filter (fun a => a != x) }
            roles := setFn s.roles x (some .Guest) }, .ok ()) := by
  simp only [applyAction, hms]

theorem timeLock_passed_not_active {env : Env} {p : PendingProposal}
    (h : timeLockPassed env p = true) : timeLockActive env p = false := by
  unfold timeLockPassed at h
  unfold timeLockActive
  rcases ht : p.time_lock_until with _ | t
  · rfl
  · rw [ht] at h
    have h3 : t ≤ env.timestamp := of_decide_eq_true h
    show decide (env.timestamp < t) = false
    exact decide_eq_false (by omega)

theorem reject_live_eq {env : Env} {s : State} {rejecter : Address} {pid : Nat}
    {p : PendingProposal} {cfg : MultiSigConfig}
    (hadm : require_admin s rejecter = .ok ())
    (hms : s.multisig = some cfg)
    (hp : s.proposals pid = some p) (hex : p.executed = false)
    (hnx : ¬ p.expiry < env.timestamp)
    (hnr : rejecter ∉ p.rejections) (hna : rejecter ∉ p.approvals) :
    reject_proposal env s rejecter pid =
      (if max (cfg.admins.length / 3) 1 < p.rejections.length + 1 then
        (let s2 := remove_from_pending_list s pid
         let s3 := { s2 with proposals := setFn s2.proposals pid none }
         ({ s3 with stats := { s3.stats with
             total_rejected := (s3.stats.total_rejected + 1) % U64
             pending_count := s3.stats.pending_count - 1 } },
          Except.error .ProposalRejected))
      else
        ({ s with
            proposals := setFn s.proposals pid
              (some { p with rejections := p.rejections ++ [rejecter] }) },
          Except.ok ())) := by
  unfold reject_proposal
  rw [hadm, hp]
  simp only [hex, Bool.false_eq_true, if_false, ite_false, hnx,
    contains_false_of_not_mem hnr, contains_false_of_not_mem hna, hms,
    List.length_append, List.length_cons, List.length_nil]

theorem approve_live_eq {env : Env} {s : State} {approver : Address} {pid : Nat}
    {p : PendingProposal}
    (hadm : require_admin s approver = .ok ())
    (hp : s.proposals pid = some p) (hex : p.executed = false)
    (hnx : ¬ p.expiry < env.timestamp)
    (hna : approver ∉ p.approvals) (hnr : approver ∉ p.rejections) :
    approve_proposal env s approver pid =
      (if p.required_signatures ≤ p.approvals.length + 1 ∧
          timeLockPassed env { p with approvals := p.approvals ++ [approver] } then
        execute_proposal env
          { s with
              proposals := setFn s.proposals pid
                (some { p with approvals := p.approvals ++ [approver] }) } pid
      else
        ({ s with
            proposals := setFn s.proposals pid
              (some { p with approvals := p.approvals ++ [approver] }) },
          Except.ok ())) := by
  unfold approve_proposal
  rw [hadm, hp]
  simp only [hex, Bool.false_eq_true, if_false, ite_false, hnx,
    contains_false_of_not_mem hna, contains_false_of_not_mem hnr,
    List.length_append, List.length_cons, List.length_nil]

theorem approve_expired_eq {env : Env} {s : State} {approver : Address}
    {pid : Nat} {p : PendingProposal}
    (hadm : require_admin s approver = .ok ())
    (hp : s.proposals pid = some p) (hex : p.executed = false)
    (hxp : p.expiry < env.timestamp) :
    approve_proposal env s approver pid =
      (cleanup_expired_proposal s pid, .error .ProposalExpired) := by
  unfold approve_proposal
  rw [hadm, hp]
  simp only [hex, Bool.false_eq_true, if_false, ite_false, if_pos hxp]

/-! ### Claim C1 -/

/-- Writing the same key twice keeps only the second write. -/
theorem setFn_setFn {β : Type} (f : Nat → β) (k : Nat) (v v' : β) :
    setFn (setFn f k v) k v' = setFn f k v' := by
  funext x
  unfold setFn
  by_cases h : x = k <;> simp [h]

/-- Collapsing a repeated point update of the proposals map inside a state. -/
theorem state_setFn_twice (s : State) (k : Nat) (v v' : Option PendingProposal) :
    ({ { s with proposals := setFn s.proposals k v } with
        proposals := setFn (setFn s.proposals k v) k v' } : State)
      = { s with proposals := setFn s.proposals k v' } := by
  show ({ s with proposals := setFn (setFn s.proposals k v) k v' } : State) = _
  rw [setFn_setFn]

/-- Reduction of `execute_proposal` on a stored, unexecuted, expired
proposal: the lazy expiry cleanup runs and `ProposalExpired` is reported. -/
theorem execute_expired_eq {env : Env} {s : State} {pid : Nat}
    {p : PendingProposal}
    (hp : s.proposals pid = some p) (hex : p.executed = false)
    (hxp : p.expiry < env.timestamp) :
    execute_proposal env s pid =
      (cleanup_expired_proposal s pid, .error .ProposalExpired) := by
  unfold execute_proposal
  rw [hp]
  simp only [hex, Bool.false_eq_true, if_false, ite_false, if_pos hxp]

/-- Errors of `initialize` leave the state unchanged. -/
theorem init_contract_error_eq {s : State} {a : Address}
    {c : Option AccessControlConfig} {s2 : State} {e : AccessControlError}
    (h : init_contract s a c = (s2, Except.error e)) : s2 = s := by
  unfold init_contract at h
  repeat' split at h
  all_goals rw [Prod.mk.injEq] at h
  all_goals first | exact h.1.symm | exact absurd h.2 (by simp)

/-- Errors of `initialize_multisig` leave the state unchanged. -/
theorem init_multisig_error_eq {s : State} {l : List Address} {r : Nat}
    {c : Option AccessControlConfig} {s2 : State} {e : AccessControlError}
    (h : init_multisig s l r c = (s2, Except.error e)) : s2 = s := by
  unfold init_multisig at h
  simp only [] at h
  repeat' split at h
  all_goals rw [Prod.mk.injEq] at h
  all_goals first | exact h.1.symm | exact absurd h.2 (by simp)

/-- Errors of `set_role` leave the state unchanged (in particular a failed
external membership-balance call). -/
theorem set_role_error_eq {env : Env} {s : State} {c u : Address}
    {r : UserRole} {s2 : State} {e : AccessControlError}
    (h : set_role env s c u r = (s2, Except.error e)) : s2 = s := by
  unfold set_role at h
  repeat' split at h
  all_goals rw [Prod.mk.injEq] at h
  all_goals first | exact h.1.symm | exact absurd h.2 (by simp)

/-- Errors of `check_access` leave the state unchanged: the access-attempt
log is only written on the `Ok` paths. -/
theorem check_access_error_eq {env : Env} {s : State} {u : Address}
    {r : UserRole} {sc : State} {e : AccessControlError}
    (h : check_access env s u r = (sc, Except.error e)) : sc = s := by
  unfold check_access at h
  simp only [] at h
  repeat' split at h
  all_goals rw [Prod.mk.injEq] at h
  all_goals first | exact h.1.symm | exact absurd h.2 (by simp)

/-- The state after a `check_access` that returns `Ok(false)`: unchanged on
the blacklist path, otherwise one failed access attempt is logged. -/
theorem check_access_false_state {env : Env} {s : State} {u : Address}
    {r : UserRole} {sc : State}
    (h : check_access env s u r = (sc, Except.ok false)) :
    sc = s ∨ sc = log_access_attempt s u false := by
  unfold check_access at h
  simp only [] at h
  repeat' split at h
  all_goals rw [Prod.mk.injEq] at h
  all_goals first
    | exact Or.inl h.1.symm
    | exact Or.inr h.1.symm
    | exact absurd h.2 (by simp)

/-- Errors of `require_access`: the state is unchanged except that
`InsufficientRole` may be reported after `check_access` already logged the
failed attempt. -/
theorem require_access_error_cases {env : Env} {s : State} {u : Address}
    {r : UserRole} {s2 : State} {e : AccessControlError}
    (h : require_access env s u r = (s2, Except.error e)) :
    s2 = s ∨ (e = .InsufficientRole ∧ s2 = log_access_attempt s u false) := by
  unfold require_access at h
  split at h
  case h_1 sc ec hC =>
    rw [Prod.mk.injEq] at h
    exact Or.inl (h.1 ▸ check_access_error_eq hC)
  case h_2 sc b hC =>
    split at h
    case isTrue hb =>
      rw [Prod.mk.injEq] at h
      exact absurd h.2 (by simp)
    case isFalse hb =>
      rw [Prod.mk.injEq] at h
      have hb' : b = false := by simpa using hb
      rw [hb'] at hC
      have he : AccessControlError.InsufficientRole = e := Except.error.inj h.2
      rcases check_access_false_state hC with h1 | h1
      · exact Or.inl (h.1 ▸ h1)
      · exact Or.inr ⟨he.symm, h.1 ▸ h1⟩

/-- Errors of `remove_role` leave the state unchanged. -/
theorem remove_role_error_eq {s : State} {c u : Address} {s2 : State}
    {e : AccessControlError}
    (h : remove_role s c u = (s2, Except.error e)) : s2 = s := by
  unfold remove_role at h
  repeat' split at h
  all_goals rw [Prod.mk.injEq] at h
  all_goals first | exact h.1.symm | exact absurd h.2 (by simp)

/-- Errors of `update_config` leave the state unchanged. -/
theorem update_config_error_eq {s : State} {c : Address}
    {cf : AccessControlConfig} {s2 : State} {e : AccessControlError}
    (h : update_config s c cf = (s2, Except.error e)) : s2 = s := by
  unfold update_config at h
  repeat' split at h
  all_goals rw [Prod.mk.injEq] at h
  all_goals first | exact h.1.symm | exact absurd h.2 (by simp)

/-- Errors of `pause` leave the state unchanged. -/
theorem pause_error_eq {s : State} {c : Address} {s2 : State}
    {e : AccessControlError}
    (h : pause s c = (s2, Except.error e)) : s2 = s := by
  unfold pause at h
  repeat' split at h
  all_goals rw [Prod.mk.injEq] at h
  all_goals first | exact h.1.symm | exact absurd h.2 (by simp)

/-- Errors of `unpause` leave the state unchanged. -/
theorem unpause_error_eq {s : State} {c : Address} {s2 : State}
    {e : AccessControlError}
    (h : unpause s c = (s2, Except.error e)) : s2 = s := by
  unfold unpause at h
  repeat' split at h
  all_goals rw [Prod.mk.injEq] at h
  all_goals first | exact h.1.symm | exact absurd h.2 (by simp)

/-- Errors of `blacklist_user` leave the state unchanged. -/
theorem blacklist_user_error_eq {s : State} {c u : Address} {s2 : State}
    {e : AccessControlError}
    (h : blacklist_user s c u = (s2, Except.error e)) : s2 = s := by
  unfold blacklist_user at h
  repeat' split at h
  all_goals rw [Prod.mk.injEq] at h
  all_goals first | exact h.1.symm | exact absurd h.2 (by simp)

/-- Errors of `unblacklist_user` leave the state unchanged. -/
theorem unblacklist_user_error_eq {s : State} {c u : Address} {s2 : State}
    {e : AccessControlError}
    (h : unblacklist_user s c u = (s2, Except.error e)) : s2 = s := by
  unfold unblacklist_user at h
  repeat' split at h
  all_goals rw [Prod.mk.injEq] at h
  all_goals first | exact h.1.symm | exact absurd h.2 (by simp)

/-- Errors of `propose_admin_transfer` leave the state unchanged. -/
theorem propose_admin_transfer_error_eq {env : Env} {s : State}
    {c n : Address} {s2 : State} {e : AccessControlError}
    (h : propose_admin_transfer env s c n = (s2, Except.error e)) : s2 = s := by
  unfold propose_admin_transfer at h
  repeat' split at h
  all_goals rw [Prod.mk.injEq] at h
  all_goals first | exact h.1.symm | exact absurd h.2 (by simp)

/-- Errors of `accept_admin_transfer` leave the state unchanged. -/
theorem accept_admin_transfer_error_eq {env : Env} {s : State}
    {n : Address} {s2 : State} {e : AccessControlError}
    (h : accept_admin_transfer env s n = (s2, Except.error e)) : s2 = s := by
  unfold accept_admin_transfer at h
  repeat' split at h
  all_goals rw [Prod.mk.injEq] at h
  all_goals first | exact h.1.symm | exact absurd h.2 (by simp)

/-- Errors of `cancel_admin_transfer` leave the state unchanged. -/
theorem cancel_admin_transfer_error_eq {s : State} {c : Address}
    {s2 : State} {e : AccessControlError}
    (h : cancel_admin_transfer s c = (s2, Except.error e)) : s2 = s := by
  unfold cancel_admin_transfer at h
  repeat' split at h
  all_goals rw [Prod.mk.injEq] at h
  all_goals first | exact h.1.symm | exact absurd h.2 (by simp)

/-- Errors of `deactivate_emergency_mode` leave the state unchanged. -/
theorem deactivate_emergency_mode_error_eq {s : State} {c : Address}
    {s2 : State} {e : AccessControlError}
    (h : deactivate_emergency_mode s c = (s2, Except.error e)) : s2 = s := by
  unfold deactivate_emergency_mode at h
  repeat' split at h
  all_goals rw [Prod.mk.injEq] at h
  all_goals first | exact h.1.symm | exact absurd h.2 (by simp)

/-- Errors of `cancel_proposal` leave the state unchanged. -/
theorem cancel_proposal_error_eq {s : State} {pr : Address} {pid : Nat}
    {s2 : State} {e : AccessControlError}
    (h : cancel_proposal s pr pid = (s2, Except.error e)) : s2 = s := by
  unfold cancel_proposal at h
  simp only [] at h
  repeat' split at h
  all_goals rw [Prod.mk.injEq] at h
  all_goals first | exact h.1.symm | exact absurd h.2 (by simp)

/-- `cleanup_expired_proposals` never returns an error. -/
theorem cleanup_no_error {env : Env} {s : State} {s2 : State}
    {e : AccessControlError}
    (h : cleanup_expired_proposals env s = (s2, Except.error e)) : False := by
  unfold cleanup_expired_proposals at h
  simp only [] at h
  rw [Prod.mk.injEq] at h
  exact absurd h.2 (by simp)

/-- Exact error states of `execute_proposal`: on error the state is
unchanged, or (`ProposalExpired`) the lazy expiry cleanup ran, or the action
dispatch failed with the `executed` flag already persisted. -/
theorem execute_error_cases {env : Env} {s : State} {pid : Nat} {s2 : State}
    {e : AccessControlError}
    (h : execute_proposal env s pid = (s2, Except.error e)) :
    s2 = s ∨
    (e = .ProposalExpired ∧ s2 = cleanup_expired_proposal s pid) ∨
    (∃ p, s.proposals pid = some p ∧ p.executed = false ∧
      s2 = { s with
        proposals := setFn s.proposals pid (some { p with executed := true }) } ∧
      (applyAction env
        { s with
            proposals := setFn s.proposals pid (some { p with executed := true }) }
        p.action).2 = Except.error e) := by
  unfold execute_proposal at h
  split at h
  case h_1 =>
    rw [Prod.mk.injEq] at h
    exact Or.inl h.1.symm
  case h_2 p hp =>
    split at h
    · rw [Prod.mk.injEq] at h
      exact Or.inl h.1.symm
    case isFalse hexec =>
      split at h
      case isTrue hexp =>
        rw [Prod.mk.injEq] at h
        exact Or.inr (Or.inl ⟨(Except.error.inj h.2).symm, h.1.symm⟩)
      case isFalse hexp =>
        split at h
        · rw [Prod.mk.injEq] at h
          exact Or.inl h.1.symm
        · split at h
          · rw [Prod.mk.injEq] at h
            exact Or.inl h.1.symm
          case isFalse happ =>
            simp only [] at h
            split at h
            case h_1 sx ex hA =>
              rw [Prod.mk.injEq] at h
              refine Or.inr (Or.inr ⟨p, hp, by simpa using hexec, ?_, ?_⟩)
              · have h2 : (applyAction env
                    { s with proposals :=
                        setFn s.proposals pid (some { p with executed := true }) }
                    p.action).2 = Except.error ex := by rw [hA]
                have h1 := applyAction_error_eq h2
                rw [hA] at h1
                rw [← h.1]
                exact h1
              · have h2 : (applyAction env
                    { s with proposals :=
                        setFn s.proposals pid (some { p with executed := true }) }
                    p.action).2 = Except.error ex := by rw [hA]
                rw [h2]
                exact h.2
            case h_2 sx _ hA =>
              rw [Prod.mk.injEq] at h
              exact absurd h.2 (by simp)

/-- Exact error states of `reject_proposal`: unchanged, the lazy expiry
cleanup, or the quorum teardown persisted alongside `ProposalRejected`. -/
theorem reject_error_cases {env : Env} {s : State} {r : Address} {pid : Nat}
    {s2 : State} {e : AccessControlError}
    (h : reject_proposal env s r pid = (s2, Except.error e)) :
    s2 = s ∨
    (e = .ProposalExpired ∧ s2 = cleanup_expired_proposal s pid) ∨
    (e = .ProposalRejected ∧ ∃ p cfg, s.proposals pid = some p ∧
      s.multisig = some cfg ∧
      max (cfg.admins.length / 3) 1 < p.rejections.length + 1 ∧
      s2 = { s with
          pendingList := s.pendingList.filter (fun x => x != pid)
          proposals := setFn s.proposals pid none
          stats := { s.stats with
              total_rejected := (s.stats.total_rejected + 1) % U64
              pending_count := s.stats.pending_count - 1 } }) := by
  unfold reject_proposal at h
  split at h
  · rw [Prod.mk.injEq] at h
    exact Or.inl h.1.symm
  · split at h
    · rw [Prod.mk.injEq] at h
      exact Or.inl h.1.symm
    case h_2 p hp =>
      split at h
      · rw [Prod.mk.injEq] at h
        exact Or.inl h.1.symm
      case isFalse hexec =>
        split at h
        case isTrue hxp =>
          rw [Prod.mk.injEq] at h
          exact Or.inr (Or.inl ⟨(Except.error.inj h.2).symm, h.1.symm⟩)
        case isFalse hxp =>
          split at h
          · rw [Prod.mk.injEq] at h
            exact Or.inl h.1.symm
          case isFalse hnr =>
            split at h
            · rw [Prod.mk.injEq] at h
              exact Or.inl h.1.symm
            case isFalse hna =>
              simp only [] at h
              split at h
              · rw [Prod.mk.injEq] at h
                exact Or.inl h.1.symm
              case h_2 cfg hms =>
                split at h
                case isTrue hthr =>
                  rw [Prod.mk.injEq] at h
                  refine Or.inr (Or.inr ⟨(Except.error.inj h.2).symm,
                    p, cfg, hp, hms, ?_, ?_⟩)
                  · simpa using hthr
                  · exact h.1.symm
                case isFalse hthr =>
                  rw [Prod.mk.injEq] at h
                  exact absurd h.2 (by simp)

/-- Exact error states of `approve_proposal`: unchanged, the lazy expiry
cleanup, or a failed auto-execution dispatch that has already persisted the
new approval together with the `executed` flag. -/
theorem approve_error_cases {env : Env} {s : State} {a : Address} {pid : Nat}
    {s2 : State} {e : AccessControlError}
    (h : approve_proposal env s a pid = (s2, Except.error e)) :
    s2 = s ∨
    (e = .ProposalExpired ∧ s2 = cleanup_expired_proposal s pid) ∨
    (∃ p, s.proposals pid = some p ∧ p.executed = false ∧ a ∉ p.approvals ∧
      s2 = { s with
          proposals := setFn s.proposals pid
            (some { p with approvals := p.approvals ++ [a], executed := true }) } ∧
      (applyAction env s2 p.action).2 = Except.error e) := by
  unfold approve_proposal at h
  split at h
  · rw [Prod.mk.injEq] at h
    exact Or.inl h.1.symm
  · split at h
    · rw [Prod.mk.injEq] at h
      exact Or.inl h.1.symm
    case h_2 p hp =>
      split at h
      · rw [Prod.mk.injEq] at h
        exact Or.inl h.1.symm
      case isFalse hexec =>
        split at h
        case isTrue hxp =>
          rw [Prod.mk.injEq] at h
          exact Or.inr (Or.inl ⟨(Except.error.inj h.2).symm, h.1.symm⟩)
        case isFalse hxp =>
          split at h
          · rw [Prod.mk.injEq] at h
            exact Or.inl h.1.symm
          case isFalse hna =>
            split at h
            · rw [Prod.mk.injEq] at h
              exact Or.inl h.1.symm
            case isFalse hnr =>
              simp only [] at h
              split at h
              case isFalse hce =>
                rw [Prod.mk.injEq] at h
                exact absurd h.2 (by simp)
              case isTrue hce =>
                have hp1 : ({ s with
                      proposals := setFn s.proposals pid
                        (some { p with approvals := p.approvals ++ [a] }) } :
                      State).proposals pid =
                    some { p with approvals := p.approvals ++ [a] } := by
                  show setFn s.proposals pid
                    (some { p with approvals := p.approvals ++ [a] }) pid = _
                  unfold setFn
                  simp
                have hex1 : ({ p with approvals := p.approvals ++ [a] } :
                    PendingProposal).executed = false := by
                  simpa using hexec
                have hnx1 : ¬ ({ p with approvals := p.approvals ++ [a] } :
                    PendingProposal).expiry < env.timestamp := hxp
                have htl1 : timeLockActive env
                    { p with approvals := p.approvals ++ [a] } = false :=
                  timeLock_passed_not_active hce.2
                have hsig1 : ({ p with approvals := p.approvals ++ [a] } :
                      PendingProposal).required_signatures ≤
                    ({ p with approvals := p.approvals ++ [a] } :
                      PendingProposal).approvals.length := hce.1
                rw [execute_ready_eq hp1 hex1 hnx1 htl1 hsig1] at h
                split at h
                case h_1 sx ex hA =>
                  rw [Prod.mk.injEq] at h
                  have hsx := applyAction_error_eq (show (applyAction env _
                    ({ p with approvals := p.approvals ++ [a] } :
                      PendingProposal).action).2 = Except.error ex by rw [hA])
                  rw [hA] at hsx
                  have hs2 : s2 = _ := h.1 ▸ hsx
                  refine Or.inr (Or.inr ⟨p, hp, by simpa using hexec,
                    not_mem_of_contains_false (by simpa using hna), ?_, ?_⟩)
                  · rw [hs2]
                    exact state_setFn_twice s pid
                      (some { p with approvals := p.approvals ++ [a] })
                      (some { p with
                        approvals := p.approvals ++ [a], executed := true })
                  · rw [hs2]
                    show (applyAction env _
                      ({ p with approvals := p.approvals ++ [a] } :
                        PendingProposal).action).2 = Except.error e
                    rw [hA]
                    exact h.2
                case h_2 sx _ hA =>
                  rw [Prod.mk.injEq] at h
                  exact absurd h.2 (by simp)

/-- Exact error states of `create_proposal`: unchanged before creation; once
the fresh proposal auto-executes, either the wrapped-around expiry tears the
new record straight down (`ProposalExpired`), or the dispatch fails with the
created proposal, counter, index entry and statistics updates persisted and
its `executed` flag set. -/
theorem create_error_cases {env : Env} {s : State} {pr : Address}
    {act : ProposalAction} {s2 : State} {e : AccessControlError}
    (h : create_proposal env s pr act = (s2, Except.error e)) :
    s2 = s ∨
    (∃ cfg np s1, s.multisig = some cfg ∧
      act.classify_type.requires_time_lock = false ∧
      cfg.get_required_signatures act.classify_type ≤ 1 ∧
      np = { id := s.proposalCounter
             proposer := pr
             action := act
             proposal_type := act.classify_type
             approvals := [pr]
             rejections := []
             executed := false
             created_at := env.timestamp
             expiry := (env.timestamp + cfg.proposal_expiry_duration) % U64
             time_lock_until := none
             required_signatures :=
               cfg.get_required_signatures act.classify_type } ∧
      s1 = { s with
          proposals := setFn s.proposals s.proposalCounter (some np)
          proposalCounter := (s.proposalCounter + 1) % U64
          pendingList := s.pendingList ++ [s.proposalCounter]
          stats := { s.stats with
              total_created := (s.stats.total_created + 1) % U64
              pending_count := (s.stats.pending_count + 1) % U32 } } ∧
      ((e = .ProposalExpired ∧ np.expiry < env.timestamp ∧
          s2 = cleanup_expired_proposal s1 s.proposalCounter) ∨
        (s2 = { s1 with
              proposals := setFn s1.proposals s.proposalCounter
                (some { np with executed := true }) } ∧
          (applyAction env s2 np.action).2 = Except.error e))) := by
  unfold create_proposal at h
  split at h
  · rw [Prod.mk.injEq] at h
    exact Or.inl h.1.symm
  · split at h
    · rw [Prod.mk.injEq] at h
      exact Or.inl h.1.symm
    case h_2 cfg hms =>
      split at h
      · rw [Prod.mk.injEq] at h
        exact Or.inl h.1.symm
      case isFalse hmax =>
        simp only [] at h
        split at h
        case isTrue htl =>
          rw [if_neg (by simp)] at h
          rw [Prod.mk.injEq] at h
          exact absurd h.2 (by simp)
        case isFalse htl =>
          split at h
          case isFalse hng =>
            rw [Prod.mk.injEq] at h
            exact absurd h.2 (by simp)
          case isTrue hg =>
            split at h
            case h_2 sx u hE =>
              rw [Prod.mk.injEq] at h
              exact absurd h.2 (by simp)
            case h_1 sx ex hE =>
              rw [Prod.mk.injEq] at h
              have hpN : ({ s with
                  proposals := setFn s.proposals s.proposalCounter (some
                    { id := s.proposalCounter
                      proposer := pr
                      action := act
                      proposal_type := act.classify_type
                      approvals := [pr]
                      rejections := []
                      executed := false
                      created_at := env.timestamp
                      expiry :=
                        (env.timestamp + cfg.proposal_expiry_duration) % U64
                      time_lock_until := none
                      required_signatures :=
                        cfg.get_required_signatures act.classify_type })
                  proposalCounter := (s.proposalCounter + 1) % U64
                  pendingList := s.pendingList ++ [s.proposalCounter]
                  stats := { s.stats with
                      total_created := (s.stats.total_created + 1) % U64
                      pending_count := (s.stats.pending_count + 1) % U32 } } :
                    State).proposals s.proposalCounter = some
                    { id := s.proposalCounter
                      proposer := pr
                      action := act
                      proposal_type := act.classify_type
                      approvals := [pr]
                      rejections := []
                      executed := false
                      created_at := env.timestamp
                      expiry :=
                        (env.timestamp + cfg.proposal_expiry_duration) % U64
                      time_lock_until := none
                      required_signatures :=
                        cfg.get_required_signatures act.classify_type } := by
                show setFn s.proposals s.proposalCounter _ s.proposalCounter = _
                unfold setFn
                simp
              by_cases hxp :
                  (env.timestamp + cfg.proposal_expiry_duration) % U64 <
                    env.timestamp
              case pos =>
                rw [execute_expired_eq hpN rfl hxp] at hE
                rw [Prod.mk.injEq] at hE
                refine Or.inr ⟨cfg, _, _, hms, by simpa using htl, hg.2,
                  rfl, rfl, Or.inl ⟨?_, hxp, ?_⟩⟩
                · exact ((Except.error.inj hE.2).trans
                    (Except.error.inj h.2)).symm
                · exact (hE.1.trans h.1).symm
              case neg =>
                rw [execute_ready_eq hpN rfl hxp rfl hg.2] at hE
                split at hE
                case h_2 sy _ hA =>
                  rw [Prod.mk.injEq] at hE
                  exact absurd hE.2 (by simp)
                case h_1 sy ey hA =>
                  rw [Prod.mk.injEq] at hE
                  have hsy := applyAction_error_eq
                    (show (applyAction env _ _).2 = Except.error ey by rw [hA])
                  rw [hA] at hsy
                  have hs2 : s2 = _ := h.1 ▸ (hE.1 ▸ hsy)
                  refine Or.inr ⟨cfg, _, _, hms, by simpa using htl, hg.2,
                    rfl, rfl, Or.inr ⟨hs2, ?_⟩⟩
                  rw [hs2]
                  rw [hA]
                  rw [Except.error.inj hE.2, Except.error.inj h.2]

/-- Claim C1 (amended): error-state characterization of every mutating entry
point of the access-control module. Outside the proposal engine an error
leaves the persisted state unchanged — in particular after a failed external
membership-balance call — except that `require_access` may report
`InsufficientRole` after `check_access` has already logged the failed access
attempt; `cleanup_expired_proposals` never errors; `cancel_proposal` errors
leave the state unchanged. Within the voting/execution path the errors with
persisted effects are exactly: the lazy expiry cleanup (`ProposalExpired`
from approve/reject/execute), the quorum teardown (`ProposalRejected` from
reject), and a failing action dispatch, which persists the `executed` flag
(execute), additionally the newly recorded approval (approve), or the whole
freshly created proposal with counter, index and statistics updates (create
auto-execution; in the wrap-around corner where the computed expiry precedes
the current time the auto-execution instead reports `ProposalExpired` after
persisting the creation and its expiry cleanup). The original unconditional
no-side-effects-on-error claim is refuted by the counterexample below; it
would hold only if the surrounding host rolled the transaction back, which
the module itself does not do. -/
theorem C1_error_state_characterization (env : Env) (s : State) :
    (∀ pid s2 e, execute_proposal env s pid = (s2, Except.error e) →
      s2 = s ∨
      (e = .ProposalExpired ∧ s2 = cleanup_expired_proposal s pid) ∨
      (∃ p, s.proposals pid = some p ∧ p.executed = false ∧
        s2 = { s with
          proposals := setFn s.proposals pid (some { p with executed := true }) } ∧
        (applyAction env
          { s with
              proposals := setFn s.proposals pid (some { p with executed := true }) }
          p.action).2 = Except.error e)) ∧
    (∀ r pid s2 e, reject_proposal env s r pid = (s2, Except.error e) →
      s2 = s ∨
      (e = .ProposalExpired ∧ s2 = cleanup_expired_proposal s pid) ∨
      (e = .ProposalRejected ∧ ∃ p cfg, s.proposals pid = some p ∧
        s.multisig = some cfg ∧
        max (cfg.admins.length / 3) 1 < p.rejections.length + 1 ∧
        s2 = { s with
            pendingList := s.pendingList.filter (fun x => x != pid)
            proposals := setFn s.proposals pid none
            stats := { s.stats with
                total_rejected := (s.stats.total_rejected + 1) % U64
                pending_count := s.stats.pending_count - 1 } })) ∧
    (∀ a pid s2 e, approve_proposal env s a pid = (s2, Except.error e) →
      s2 = s ∨
      (e = .ProposalExpired ∧ s2 = cleanup_expired_proposal s pid) ∨
      (∃ p, s.proposals pid = some p ∧ p.executed = false ∧ a ∉ p.approvals ∧
        s2 = { s with
            proposals := setFn s.proposals pid
              (some { p with approvals := p.approvals ++ [a], executed := true }) } ∧
        (applyAction env s2 p.action).2 = Except.error e)) ∧
    (∀ pr act s2 e, create_proposal env s pr act = (s2, Except.error e) →
      s2 = s ∨
      (∃ cfg np s1, s.multisig = some cfg ∧
        act.classify_type.requires_time_lock = false ∧
        cfg.get_required_signatures act.classify_type ≤ 1 ∧
        np = { id := s.proposalCounter
               proposer := pr
               action := act
               proposal_type := act.classify_type
               approvals := [pr]
               rejections := []
               executed := false
               created_at := env.timestamp
               expiry := (env.timestamp + cfg.proposal_expiry_duration) % U64
               time_lock_until := none
               required_signatures :=
                 cfg.get_required_signatures act.classify_type } ∧
        s1 = { s with
            proposals := setFn s.proposals s.proposalCounter (some np)
            proposalCounter := (s.proposalCounter + 1) % U64
            pendingList := s.pendingList ++ [s.proposalCounter]
            stats := { s.stats with
                total_created := (s.stats.total_created + 1) % U64
                pending_count := (s.stats.pending_count + 1) % U32 } } ∧
        ((e = .ProposalExpired ∧ np.expiry < env.timestamp ∧
            s2 = cleanup_expired_proposal s1 s.proposalCounter) ∨
          (s2 = { s1 with
                proposals := setFn s1.proposals s.proposalCounter
                  (some { np with executed := true }) } ∧
            (applyAction env s2 np.action).2 = Except.error e)))) ∧
    (∀ a c s2 e, init_contract s a c = (s2, Except.error e) → s2 = s) ∧
    (∀ l r c s2 e, init_multisig s l r c = (s2, Except.error e) → s2 = s) ∧
    (∀ c u r s2 e, set_role env s c u r = (s2, Except.error e) → s2 = s) ∧
    (∀ u r s2 e, check_access env s u r = (s2, Except.error e) → s2 = s) ∧
    (∀ u r s2 e, require_access env s u r = (s2, Except.error e) →
      s2 = s ∨ (e = .InsufficientRole ∧ s2 = log_access_attempt s u false)) ∧
    (∀ c u s2 e, remove_role s c u = (s2, Except.error e) → s2 = s) ∧
    (∀ c cf s2 e, update_config s c cf = (s2, Except.error e) → s2 = s) ∧
    (∀ c s2 e, pause s c = (s2, Except.error e) → s2 = s) ∧
    (∀ c s2 e, unpause s c = (s2, Except.error e) → s2 = s) ∧
    (∀ c u s2 e, blacklist_user s c u = (s2, Except.error e) → s2 = s) ∧
    (∀ c u s2 e, unblacklist_user s c u = (s2, Except.error e) → s2 = s) ∧
    (∀ c n s2 e, propose_admin_transfer env s c n = (s2, Except.error e) →
      s2 = s) ∧
    (∀ n s2 e, accept_admin_transfer env s n = (s2, Except.error e) → s2 = s) ∧
    (∀ c s2 e, cancel_admin_transfer s c = (s2, Except.error e) → s2 = s) ∧
    (∀ c s2 e, deactivate_emergency_mode s c = (s2, Except.error e) → s2 = s) ∧
    (∀ pr pid s2 e, cancel_proposal s pr pid = (s2, Except.error e) → s2 = s) ∧
    (∀ s2 e, cleanup_expired_proposals env s ≠ (s2, Except.error e)) := by
  refine ⟨?_, ?_, ?_, ?_, ?_, ?_, ?_, ?_, ?_, ?_, ?_, ?_, ?_, ?_, ?_, ?_,
    ?_, ?_, ?_, ?_, ?_⟩
  · exact fun pid s2 e h => execute_error_cases h
  · exact fun r pid s2 e h => reject_error_cases h
  · exact fun a pid s2 e h => approve_error_cases h
  · exact fun pr act s2 e h => create_error_cases h
  · exact fun a c s2 e h => init_contract_error_eq h
  · exact fun l r c s2 e h => init_multisig_error_eq h
  · exact fun c u r s2 e h => set_role_error_eq h
  · exact fun u r s2 e h => check_access_error_eq h
  · exact fun u r s2 e h => require_access_error_cases h
  · exact fun c u s2 e h => remove_role_error_eq h
  · exact fun c cf s2 e h => update_config_error_eq h
  · exact fun c s2 e h => pause_error_eq h
  · exact fun c s2 e h => unpause_error_eq h
  · exact fun c u s2 e h => blacklist_user_error_eq h
  · exact fun c u s2 e h => unblacklist_user_error_eq h
  · exact fun c n s2 e h => propose_admin_transfer_error_eq h
  · exact fun n s2 e h => accept_admin_transfer_error_eq h
  · exact fun c s2 e h => cancel_admin_transfer_error_eq h
  · exact fun c s2 e h => deactivate_emergency_mode_error_eq h
  · exact fun pr pid s2 e h => cancel_proposal_error_eq h
  · exact fun s2 e h => cleanup_no_error h

/-- Claim C1 witness: the execute-conjunct of the characterization applied to
a concrete failing `RemoveAdmin` execution. -/
theorem C1_error_state_characterization_witness :
    (execute_proposal envT stRemove 0).1 = stRemove ∨
    (AccessControlError.CannotRemoveLastAdmin = .ProposalExpired ∧
      (execute_proposal envT stRemove 0).1 = cleanup_expired_proposal stRemove 0) ∨
    (∃ p, stRemove.proposals 0 = some p ∧ p.executed = false ∧
      (execute_proposal envT stRemove 0).1 = { stRemove with
        proposals := setFn stRemove.proposals 0 (some { p with executed := true }) } ∧
      (applyAction envT
        { stRemove with
            proposals := setFn stRemove.proposals 0 (some { p with executed := true }) }
        p.action).2 = Except.error .CannotRemoveLastAdmin) :=
  (C1_error_state_characterization envT stRemove).1 0
    (execute_proposal envT stRemove 0).1 .CannotRemoveLastAdmin (by rfl)

/-- Claim C1 counterexample: `execute_proposal` on a fully approved
`RemoveAdmin` proposal over a committee at its emergency floor returns the
`CannotRemoveLastAdmin` error, yet the persisted proposal record differs from
the one before the call (its `executed` flag is now `true`), contradicting
"the persisted state after the call equals the persisted state before". -/
theorem C1_counterexample_executed_flag_persists :
    (execute_proposal envT stRemove 0).2 = .error .CannotRemoveLastAdmin ∧
    (execute_proposal envT stRemove 0).1.proposals 0 ≠ stRemove.proposals 0 :=
  ⟨rfl, by decide⟩

/-! ### Claim C3 -/

/-- Claim C3 (amended): executing a `RemoveAdmin` proposal fails with
`CannotRemoveLastAdmin` and leaves the committee unchanged exactly when the
CURRENT committee size is at most `emergency_threshold` (equivalently, when
the resulting size would fall strictly below the threshold); when the current
size exceeds the threshold the removal succeeds — including the boundary case
where the resulting size equals `emergency_threshold`, which the original
claim said must fail. -/
theorem C3_remove_admin_floor (env : Env) (s : State) (pid : Nat)
    (p : PendingProposal) (cfg : MultiSigConfig) (x : Address)
    (hms : s.multisig = some cfg)
    (hp : s.proposals pid = some p) (hact : p.action = .RemoveAdmin x)
    (hex : p.executed = false) (hnx : ¬ p.expiry < env.timestamp)
    (htl : timeLockActive env p = false)
    (hsig : p.required_signatures ≤ p.approvals.length) :
    (cfg.admins.length ≤ cfg.emergency_threshold →
      (execute_proposal env s pid).2 = .error .CannotRemoveLastAdmin ∧
      ((execute_proposal env s pid).1).multisig = some cfg) ∧
    (cfg.emergency_threshold < cfg.admins.length →
      (execute_proposal env s pid).2 = .ok () ∧
      ((execute_proposal env s pid).1).multisig =
        some { cfg with admins := cfg.admins.filter (fun a => a != x) }) := by
  rw [execute_ready_eq hp hex hnx htl hsig]
  rw [hact]
  rw [applyAction_removeAdmin (show ({ s with
      proposals := setFn s.proposals pid
        (some { p with action := .RemoveAdmin x, executed := true }) } :
        State).multisig = some cfg from hms)]
  constructor
  · intro hle
    rw [if_pos hle]
    exact ⟨rfl, hms⟩
  · intro hgt
    rw [if_neg (by omega)]
    exact ⟨rfl, rfl⟩

/-- Claim C3 witness: over the 3-member committee at its emergency floor the
removal fails and the committee survives. -/
theorem C3_remove_admin_floor_witness :
    (execute_proposal envT stRemove 0).2 = .error .CannotRemoveLastAdmin ∧
    (execute_proposal envT stRemove 0).1.multisig = some cfg3 :=
  (C3_remove_admin_floor envT stRemove 0 propRemove cfg3 3 rfl rfl rfl rfl
    (by decide) rfl (by decide)).1 (by decide)

/-- Claim C3 counterexample: with 4 admins and `emergency_threshold = 3`, the
resulting committee size 3 is not strictly above the threshold, yet the
removal succeeds and the committee shrinks to exactly the threshold —
refuting "removal succeeds only when the resulting size stays strictly above
emergency_threshold". -/
theorem C3_counterexample_shrink_to_threshold_succeeds :
    (execute_proposal envT stRemoveEdge 0).2 = .ok () ∧
    (execute_proposal envT stRemoveEdge 0).1.multisig =
      some { cfg4 with admins := [1, 2, 3] } ∧
    cfg4.admins.length - 1 ≤ cfg4.emergency_threshold :=
  ⟨rfl, by decide, by decide⟩

/-! ### Claim C4 -/

/-- Claim C4: for a live proposal and an admin rejecter who has not voted,
`reject_proposal` tears the proposal down (record deleted, removed from the
pending index, `total_rejected` incremented, `pending_count` decremented,
`ProposalRejected` reported to the deciding caller) exactly when the new
rejection count strictly exceeds `max(1, |admins| / 3)`; otherwise the vote is
recorded and the statistics and index are untouched. -/
theorem C4_reject_quorum (env : Env) (s : State) (rejecter : Address)
    (pid : Nat) (p : PendingProposal) (cfg : MultiSigConfig)
    (hadm : require_admin s rejecter = .ok ())
    (hms : s.multisig = some cfg)
    (hp : s.proposals pid = some p) (hex : p.executed = false)
    (hnx : ¬ p.expiry < env.timestamp)
    (hnr : rejecter ∉ p.rejections) (hna : rejecter ∉ p.approvals)
    (hb : s.stats.total_rejected + 1 < U64) :
    (max (cfg.admins.length / 3) 1 < p.rejections.length + 1 →
      (reject_proposal env s rejecter pid).2 = .error .ProposalRejected ∧
      get_proposal ((reject_proposal env s rejecter pid).1) pid = none ∧
      pid ∉ ((reject_proposal env s rejecter pid).1).pendingList ∧
      ((reject_proposal env s rejecter pid).1).stats.total_rejected =
        s.stats.total_rejected + 1 ∧
      ((reject_proposal env s rejecter pid).1).stats.pending_count =
        s.stats.pending_count - 1) ∧
    (¬ max (cfg.admins.length / 3) 1 < p.rejections.length + 1 →
      (reject_proposal env s rejecter pid).2 = .ok () ∧
      get_proposal ((reject_proposal env s rejecter pid).1) pid =
        some { p with rejections := p.rejections ++ [rejecter] } ∧
      ((reject_proposal env s rejecter pid).1).stats = s.stats ∧
      ((reject_proposal env s rejecter pid).1).pendingList = s.pendingList) := by
  rw [reject_live_eq hadm hms hp hex hnx hnr hna]
  constructor
  · intro hc
    rw [if_pos hc]
    refine ⟨rfl, ?_, ?_, ?_, rfl⟩
    · simp [get_proposal, setFn, remove_from_pending_list]
    · show pid ∉ List.filter (fun x => x != pid) s.pendingList
      rw [mem_filter_ne]
      simp
    · show (s.stats.total_rejected + 1) % U64 = s.stats.total_rejected + 1
      exact Nat.mod_eq_of_lt hb
  · intro hc
    rw [if_neg hc]
    refine ⟨rfl, ?_, rfl, rfl⟩
    simp [get_proposal, setFn]

/-- Claim C4 witness: 3 admins give `rejection_threshold = max(1, 3/3) = 1`;
the second rejection exceeds it, so the proposal is torn down and is no
longer retrievable. -/
theorem C4_reject_quorum_witness :
    (reject_proposal envT stVoted 3 0).2 = .error .ProposalRejected ∧
    get_proposal ((reject_proposal envT stVoted 3 0).1) 0 = none ∧
    0 ∉ ((reject_proposal envT stVoted 3 0).1).pendingList ∧
    ((reject_proposal envT stVoted 3 0).1).stats.total_rejected =
      stVoted.stats.total_rejected + 1 ∧
    ((reject_proposal envT stVoted 3 0).1).stats.pending_count =
      stVoted.stats.pending_count - 1 :=
  (C4_reject_quorum envT stVoted 3 0 propVoted cfg3 (by decide) rfl rfl rfl
    (by decide) (by decide) (by decide) (by decide)).1 (by decide)

/-! ### Claim C5 -/

/-- Claim C5: for a live, unexpired proposal and an admin approver who has not
voted, `approve_proposal` appends the approver, and the proposal's `executed`
flag becomes true within the same call exactly when the new approval count
meets the snapshotted `required_signatures` AND the time-lock (if any) has
passed; when that condition fails the call succeeds, the proposal stays in the
pending index unexecuted, and the statistics are unchanged. -/
theorem C5_approve_threshold_timelock (env : Env) (s : State)
    (approver : Address) (pid : Nat) (p : PendingProposal)
    (hadm : require_admin s approver = .ok ())
    (hp : s.proposals pid = some p) (hex : p.executed = false)
    (hnx : ¬ p.expiry < env.timestamp)
    (hna : approver ∉ p.approvals) (hnr : approver ∉ p.rejections) :
    (∃ q, ((approve_proposal env s approver pid).1).proposals pid = some q ∧
       q.approvals = p.approvals ++ [approver] ∧
       (q.executed = true ↔
         (p.required_signatures ≤ p.approvals.length + 1 ∧
          timeLockPassed env p = true))) ∧
    (¬ (p.required_signatures ≤ p.approvals.length + 1 ∧
        timeLockPassed env p = true) →
       (approve_proposal env s approver pid).2 = .ok () ∧
       ((approve_proposal env s approver pid).1).pendingList = s.pendingList ∧
       ((approve_proposal env s approver pid).1).stats = s.stats) := by
  rw [approve_live_eq hadm hp hex hnx hna hnr]
  by_cases hc : p.required_signatures ≤ p.approvals.length + 1 ∧
      timeLockPassed env p = true
  · have hcond : p.required_signatures ≤ p.approvals.length + 1 ∧
        timeLockPassed env
          ({ p with approvals := p.approvals ++ [approver] } : PendingProposal) =
          true := ⟨hc.1, hc.2⟩
    rw [if_pos hcond]
    have hp1 : ({ s with
        proposals := setFn s.proposals pid
          (some { p with approvals := p.approvals ++ [approver] }) } : State).proposals
          pid = some { p with approvals := p.approvals ++ [approver] } := by
      simp [setFn]
    have htl1 : timeLockActive env
        ({ p with approvals := p.approvals ++ [approver] } : PendingProposal) =
        false := timeLock_passed_not_active hc.2
    have hsig1 : ({ p with approvals := p.approvals ++ [approver] } :
        PendingProposal).required_signatures ≤
        ({ p with approvals := p.approvals ++ [approver] } :
          PendingProposal).approvals.length := by
      simpa using hc.1
    constructor
    · refine ⟨{ p with approvals := p.approvals ++ [approver], executed := true },
        ?_, rfl, iff_of_true rfl hc⟩
      rw [execute_ready_proposals hp1 hex hnx htl1 hsig1]
      simp [setFn]
    · intro h
      exact absurd hc h
  · have hcond : ¬ (p.required_signatures ≤ p.approvals.length + 1 ∧
        timeLockPassed env
          ({ p with approvals := p.approvals ++ [approver] } : PendingProposal) =
          true) := fun hx => hc ⟨hx.1, hx.2⟩
    rw [if_neg hcond]
    constructor
    · exact ⟨{ p with approvals := p.approvals ++ [approver] }, by simp [setFn],
        rfl, iff_of_false (by simp [hex]) hc⟩
    · intro _
      exact ⟨rfl, rfl, rfl⟩

/-- Claim C5 witness: an approval that brings the count to 2 of a required 3
leaves the proposal pending and unexecuted with untouched statistics. -/
theorem C5_approve_threshold_timelock_witness :
    (approve_proposal envT stNeedsThree 2 0).2 = .ok () ∧
    ((approve_proposal envT stNeedsThree 2 0).1).pendingList =
      stNeedsThree.pendingList ∧
    ((approve_proposal envT stNeedsThree 2 0).1).stats = stNeedsThree.stats :=
  (C5_approve_threshold_timelock envT stNeedsThree 2 0 propNeedsThree
    (by decide) rfl rfl (by decide) (by decide) (by decide)).2 (by decide)

/-! ### Claim C7 -/

/-- Claim C7: once the clock passes a pending proposal's expiry, any
`approve_proposal` call on it fails with `ProposalExpired`, removes the
proposal from the pending index and storage, and increments `total_expired`
by exactly one; a subsequent `cleanup_expired_proposals` sweep (here over a
pending index that held only this proposal) is a no-op and counts nothing, so
expiry accounting is idempotent per proposal. -/
theorem C7_expiry_idempotent :
    (∀ (env : Env) (s : State) (approver : Address) (pid : Nat)
        (p : PendingProposal),
      require_admin s approver = .ok () →
      s.proposals pid = some p → p.executed = false →
      p.expiry < env.timestamp →
      s.stats.total_expired + 1 < U64 →
      (approve_proposal env s approver pid).2 = .error .ProposalExpired ∧
      get_proposal ((approve_proposal env s approver pid).1) pid = none ∧
      pid ∉ ((approve_proposal env s approver pid).1).pendingList ∧
      ((approve_proposal env s approver pid).1).stats.total_expired =
        s.stats.total_expired + 1) ∧
    (∀ (env : Env) (s : State) (approver : Address) (pid : Nat)
        (p : PendingProposal),
      require_admin s approver = .ok () →
      s.proposals pid = some p → p.executed = false →
      p.expiry < env.timestamp →
      s.pendingList = [pid] →
      cleanup_expired_proposals env ((approve_proposal env s approver pid).1) =
        (((approve_proposal env s approver pid).1), .ok 0)) := by
  constructor
  · intro env s approver pid p hadm hp hex hxp hb
    rw [approve_expired_eq hadm hp hex hxp]
    refine ⟨rfl, ?_, ?_, ?_⟩
    · simp [get_proposal, cleanup_expired_proposal, remove_from_pending_list, setFn]
    · show pid ∉ List.filter (fun x => x != pid) s.pendingList
      rw [mem_filter_ne]
      simp
    · show (s.stats.total_expired + 1) % U64 = s.stats.total_expired + 1
      exact Nat.mod_eq_of_lt hb
  · intro env s approver pid p hadm hp hex hxp hlist
    rw [approve_expired_eq hadm hp hex hxp]
    unfold cleanup_expired_proposals
    have hpl : (cleanup_expired_proposal s pid).pendingList = [] := by
      simp [cleanup_expired_proposal, remove_from_pending_list, hlist]
    rw [hpl]
    rfl

/-- Claim C7 witness: a concrete expired approval followed by a counting-free
cleanup sweep. -/
theorem C7_expiry_idempotent_witness :
    ((approve_proposal envLate stNeedsThree 2 0).2 = .error .ProposalExpired ∧
     get_proposal ((approve_proposal envLate stNeedsThree 2 0).1) 0 = none ∧
     0 ∉ ((approve_proposal envLate stNeedsThree 2 0).1).pendingList ∧
     ((approve_proposal envLate stNeedsThree 2 0).1).stats.total_expired =
       stNeedsThree.stats.total_expired + 1) ∧
    cleanup_expired_proposals envLate
        ((approve_proposal envLate stNeedsThree 2 0).1) =
      (((approve_proposal envLate stNeedsThree 2 0).1), .ok 0) :=
  ⟨C7_expiry_idempotent.1 envLate stNeedsThree 2 0 propNeedsThree (by decide)
     rfl rfl (by decide) (by decide),
   C7_expiry_idempotent.2 envLate stNeedsThree 2 0 propNeedsThree (by decide)
     rfl rfl (by decide) rfl⟩

/-! ### Claim C8 -/

/-- Claim C8: in an initialized, unpaused state `check_access` never returns
an error; it returns `Ok false` for a blacklisted user, and also returns
`Ok false` (rather than propagating the error) when the role hierarchy passes
but the membership-policy re-validation fails. -/
theorem C8_check_access_no_error (env : Env) (s : State) (user : Address)
    (role : UserRole)
    (hi : s.initialized = true) (hpz : s.paused = false) :
    ∃ b, (check_access env s user role).2 = .ok b ∧
      (s.blacklisted user = true → b = false) ∧
      ((get_role s user).has_access role = true →
        (∃ e, validate_membership_access env s user role = .error e) →
        b = false) := by
  unfold check_access
  rw [hi, hpz]
  simp only [Bool.not_true, Bool.false_eq_true, if_false, ite_false]
  by_cases hbl : s.blacklisted user = true
  · rw [if_pos hbl]
    exact ⟨false, rfl, fun _ => rfl, fun _ _ => rfl⟩
  · rw [if_neg hbl]
    by_cases hacc : (get_role s user).has_access role = true
    · have hcond : ¬ (!(get_role s user).has_access role) = true := by simp [hacc]
      rw [if_neg hcond]
      rcases hv : validate_membership_access env s user role with e | u
      · exact ⟨false, rfl, fun _ => rfl, fun _ _ => rfl⟩
      · refine ⟨true, rfl, fun hb => absurd hb hbl, fun _ h => ?_⟩
        rcases h with ⟨e, he⟩
        simp at he
    · have h0 : (get_role s user).has_access role = false := by
        rcases Bool.eq_false_or_eq_true ((get_role s user).has_access role) with h | h
        · exact absurd h hacc
        · exact h
      have hcond : (!(get_role s user).has_access role) = true := by simp [h0]
      rw [if_pos hcond]
      exact ⟨false, rfl, fun _ => rfl, fun h _ => absurd h hacc⟩

/-- Claim C8 witness: the theorem applied to a state where the queried user is
blacklisted. -/
theorem C8_check_access_no_error_witness :
    ∃ b, (check_access envT stAccess 7 .Member).2 = .ok b ∧
      (stAccess.blacklisted 7 = true → b = false) ∧
      ((get_role stAccess 7).has_access .Member = true →
        (∃ e, validate_membership_access envT stAccess 7 .Member = .error e) →
        b = false) :=
  C8_check_access_no_error envT stAccess 7 .Member rfl rfl

/-! ### Claim C9 -/

/-- Claim C9 (amended): `execute_proposal` performs no authorization check of
its own — it takes no caller and its outcome depends only on the proposal id
and the stored state. For every stored proposal that is unexecuted, unexpired,
past its time-lock and at or above its snapshotted approval threshold, it
succeeds and applies the action, PROVIDED the action's own dispatch does not
fail; the original claim's unconditional "succeeds" fails for actions the
dispatch rejects (e.g. `TransferAdmin`). -/
theorem C9_execute_no_auth (env : Env) (s : State) (pid : Nat)
    (p : PendingProposal)
    (hp : s.proposals pid = some p) (hex : p.executed = false)
    (hnx : ¬ p.expiry < env.timestamp) (htl : timeLockActive env p = false)
    (hsig : p.required_signatures ≤ p.approvals.length)
    (hdisp : (applyAction env
        { s with proposals := setFn s.proposals pid (some { p with executed := true }) }
        p.action).2 = .ok ()) :
    execute_proposal env s pid =
      (let s2 := (applyAction env
          { s with proposals := setFn s.proposals pid (some { p with executed := true }) }
          p.action).1
       let s3 := remove_from_pending_list s2 pid
       ({ s3 with stats := { s3.stats with
           total_executed := (s3.stats.total_executed + 1) % U64
           pending_count := s3.stats.pending_count - 1 } }, .ok ())) := by
  rw [execute_ready_eq hp hex hnx htl hsig]
  rcases hAp : applyAction env
      { s with proposals := setFn s.proposals pid (some { p with executed := true }) }
      p.action with ⟨s2, r2⟩
  cases r2 with
  | error e => rw [hAp] at hdisp; simp at hdisp
  | ok a => rfl

/-- Claim C9 witness: a fully approved `Pause` proposal executes with no
caller and no admin hypothesis. -/
theorem C9_execute_no_auth_witness :
    execute_proposal envT stPause 0 =
      (let s2 := (applyAction envT
          { stPause with
            proposals := setFn stPause.proposals 0 (some { propPause with executed := true }) }
          propPause.action).1
       let s3 := remove_from_pending_list s2 0
       ({ s3 with stats := { s3.stats with
           total_executed := (s3.stats.total_executed + 1) % U64
           pending_count := s3.stats.pending_count - 1 } }, .ok ())) :=
  C9_execute_no_auth envT stPause 0 propPause rfl rfl (by decide) rfl
    (by decide) rfl

/-- Claim C9 counterexample: a stored `TransferAdmin` proposal satisfies every
hypothesis of the claim (unexecuted, unexpired, no time-lock, fully approved)
yet `execute_proposal` returns `InvalidProposalType` instead of succeeding. -/
theorem C9_counterexample_unhandled_action_fails :
    stTransfer.proposals 0 = some propTransfer ∧
    propTransfer.executed = false ∧
    ¬ propTransfer.expiry < envT.timestamp ∧
    timeLockActive envT propTransfer = false ∧
    propTransfer.required_signatures ≤ propTransfer.approvals.length ∧
    (execute_proposal envT stTransfer 0).2 = .error .InvalidProposalType :=
  ⟨rfl, rfl, by decide, rfl, by decide, rfl⟩

/-! ### Claim C10 -/

/-- Claim C10: executing a `RemoveAdmin x` proposal where `x` is not a
committee member and the committee is strictly larger than
`emergency_threshold` succeeds, leaves the committee member list unchanged,
counts the proposal as executed, and nevertheless overwrites `x`'s stored
role to `Guest`. -/
theorem C10_remove_nonmember_admin (env : Env) (s : State) (pid : Nat)
    (p : PendingProposal) (cfg : MultiSigConfig) (x : Address)
    (hms : s.multisig = some cfg) (hxm : x ∉ cfg.admins)
    (hlen : cfg.emergency_threshold < cfg.admins.length)
    (hp : s.proposals pid = some p) (hact : p.action = .RemoveAdmin x)
    (hex : p.executed = false) (hnx : ¬ p.expiry < env.timestamp)
    (htl : timeLockActive env p = false)
    (hsig : p.required_signatures ≤ p.approvals.length)
    (hb : s.stats.total_executed + 1 < U64) :
    (execute_proposal env s pid).2 = .ok () ∧
    ((execute_proposal env s pid).1).multisig = some cfg ∧
    get_role ((execute_proposal env s pid).1) x = .Guest ∧
    ((execute_proposal env s pid).1).stats.total_executed =
      s.stats.total_executed + 1 := by
  rw [execute_ready_eq hp hex hnx htl hsig]
  rw [hact]
  rw [applyAction_removeAdmin (show ({ s with
      proposals := setFn s.proposals pid
        (some { p with action := .RemoveAdmin x, executed := true }) } :
        State).multisig = some cfg from hms)]
  rw [if_neg (by omega)]
  refine ⟨rfl, ?_, ?_, ?_⟩
  · show some ({ cfg with admins := cfg.admins.filter (fun a => a != x) }) = some cfg
    rw [filter_ne_of_not_mem hxm]
  · simp [get_role, setFn, remove_from_pending_list]
  · show (s.stats.total_executed + 1) % U64 = s.stats.total_executed + 1
    exact Nat.mod_eq_of_lt hb

/-- Claim C10 witness: removing the non-member 9 from the 4-member committee
succeeds, keeps the committee intact, and resets 9's role to `Guest`. -/
theorem C10_remove_nonmember_admin_witness :
    (execute_proposal envT stRemoveOutsider 0).2 = .ok () ∧
    (execute_proposal envT stRemoveOutsider 0).1.multisig = some cfg4 ∧
    get_role (execute_proposal envT stRemoveOutsider 0).1 9 = .Guest ∧
    (execute_proposal envT stRemoveOutsider 0).1.stats.total_executed =
      stRemoveOutsider.stats.total_executed + 1 :=
  C10_remove_nonmember_admin envT stRemoveOutsider 0 propRemoveOutsider cfg4 9
    rfl (by decide) (by decide) rfl rfl rfl (by decide) rfl (by decide)
    (by decide)

/-! ### Claims C2 and C6: book-keeping invariants -/

theorem stateInv_congr {s t : State} (h : StateInv s)
    (hp : t.proposals = s.proposals)
    (hl : t.pendingList = s.pendingList) (hs : t.stats = s.stats)
    (hc : t.proposalCounter = s.proposalCounter) : StateInv t := by
  unfold StateInv stats_identity at h ⊢
  rw [hp, hl, hs, hc]
  exact h

theorem cleanup_one_inv {s : State} {pid : Nat} {p : PendingProposal}
    (hInv : StateInv s) (hp : s.proposals pid = some p)
    (hex : p.executed = false) (hb : s.stats.total_expired + 1 < U64) :
    StateInv (cleanup_expired_proposal s pid) := by
  obtain ⟨hid, hlen, hnd, hA, hB, hF⟩ := hInv
  have hmem : pid ∈ s.pendingList := hA pid p hp hex
  have hl := filter_ne_length s.pendingList pid hnd hmem
  unfold stats_identity at hid
  refine ⟨?_, ?_, ?_, ?_, ?_, ?_⟩
  · show s.stats.total_created = s.stats.total_executed + s.stats.total_rejected +
      ((s.stats.total_expired + 1) % U64) + (s.stats.pending_count - 1)
    rw [Nat.mod_eq_of_lt hb]
    omega
  · show s.stats.pending_count - 1 =
      (List.filter (fun x => x != pid) s.pendingList).length
    omega
  · exact filter_ne_nodup pid hnd
  · intro q r hq hrex
    have hq2 : setFn s.proposals pid none q = some r := hq
    show q ∈ List.filter (fun x => x != pid) s.pendingList
    rw [mem_filter_ne]
    by_cases hqp : q = pid
    · subst hqp
      simp [setFn] at hq2
    · simp [setFn, hqp] at hq2
      exact ⟨hA q r hq2 hrex, hqp⟩
  · intro q hq
    have hq2 : q ∈ List.filter (fun x => x != pid) s.pendingList := hq
    rw [mem_filter_ne] at hq2
    show (setFn s.proposals pid none q).isSome
    simpa [setFn, hq2.2] using hB q hq2.1
  · intro q hcq
    show setFn s.proposals pid none q = none
    by_cases hqp : q = pid
    · simp [setFn, hqp]
    · simpa [setFn, hqp] using hF q hcq

theorem update_record_inv {s : State} {pid : Nat} {p q : PendingProposal}
    (hInv : StateInv s) (hp : s.proposals pid = some p)
    (hexp : p.executed = false) (hexq : q.executed = false) :
    StateInv { s with proposals := setFn s.proposals pid (some q) } := by
  obtain ⟨hid, hlen, hnd, hA, hB, hF⟩ := hInv
  have hmem : pid ∈ s.pendingList := hA pid p hp hexp
  refine ⟨hid, hlen, hnd, ?_, ?_, ?_⟩
  · intro r q2 hr hrex
    have hr2 : setFn s.proposals pid (some q) r = some q2 := hr
    show r ∈ s.pendingList
    by_cases hrp : r = pid
    · subst hrp
      exact hmem
    · simp [setFn, hrp] at hr2
      exact hA r q2 hr2 hrex
  · intro r hrmem
    show (setFn s.proposals pid (some q) r).isSome
    by_cases hrp : r = pid
    · simp [setFn, hrp]
    · simpa [setFn, hrp] using hB r hrmem
  · intro r hcr
    show setFn s.proposals pid (some q) r = none
    by_cases hrp : r = pid
    · subst hrp
      exact absurd (hF _ hcr) (by simp [hp])
    · simpa [setFn, hrp] using hF r hcr

theorem set_executed_inv {s : State} {pid : Nat} {p : PendingProposal}
    (hInv : StateInv s) (hp : s.proposals pid = some p) :
    StateInv { s with
      proposals := setFn s.proposals pid (some { p with executed := true }) } := by
  obtain ⟨hid, hlen, hnd, hA, hB, hF⟩ := hInv
  refine ⟨hid, hlen, hnd, ?_, ?_, ?_⟩
  · intro r q2 hr hrex
    have hr2 : setFn s.proposals pid (some { p with executed := true }) r =
        some q2 := hr
    show r ∈ s.pendingList
    by_cases hrp : r = pid
    · subst hrp
      simp [setFn] at hr2
      rw [← hr2] at hrex
      simp at hrex
    · simp [setFn, hrp] at hr2
      exact hA r q2 hr2 hrex
  · intro r hrmem
    show (setFn s.proposals pid (some { p with executed := true }) r).isSome
    by_cases hrp : r = pid
    · simp [setFn, hrp]
    · simpa [setFn, hrp] using hB r hrmem
  · intro r hcr
    show setFn s.proposals pid (some { p with executed := true }) r = none
    by_cases hrp : r = pid
    · subst hrp
      exact absurd (hF _ hcr) (by simp [hp])
    · simpa [setFn, hrp] using hF r hcr

theorem execute_inv (env : Env) (s : State) (pid : Nat)
    (hInv : StateInv s)
    (hbex : s.stats.total_executed + 1 < U64)
    (hbxp : s.stats.total_expired + 1 < U64) :
    StateInv (execute_proposal env s pid).1 := by
  unfold execute_proposal
  split
  · exact hInv
  case h_2 p hp =>
    split
    · exact hInv
    case isFalse hexec =>
      split
      case isTrue hexp =>
        exact cleanup_one_inv hInv hp (by simpa using hexec) hbxp
      case isFalse hexp =>
        split
        · exact hInv
        · split
          · exact hInv
          case isFalse happ =>
            simp only []
            rcases hAp : applyAction env
                { s with proposals :=
                    setFn s.proposals pid (some { p with executed := true }) }
                p.action with ⟨s2, r2⟩
            have hfl := applyAction_fields env
                { s with proposals :=
                    setFn s.proposals pid (some { p with executed := true }) }
                p.action
            rw [hAp] at hfl
            obtain ⟨hflp, hfll, hfls, hflc⟩ := hfl
            have hflp2 : s2.proposals =
                setFn s.proposals pid (some { p with executed := true }) := hflp
            have hfll2 : s2.pendingList = s.pendingList := hfll
            have hfls2 : s2.stats = s.stats := hfls
            have hflc2 : s2.proposalCounter = s.proposalCounter := hflc
            have hInv1 : StateInv { s with
                proposals := setFn s.proposals pid
                  (some { p with executed := true }) } :=
              set_executed_inv hInv hp
            cases r2 with
            | error e =>
                exact stateInv_congr hInv1 hflp hfll hfls hflc
            | ok a =>
                obtain ⟨hid, hlen, hnd, hA, hB, hF⟩ := hInv
                have hex : p.executed = false := by simpa using hexec
                have hmem : pid ∈ s.pendingList := hA pid p hp hex
                have hl := filter_ne_length s.pendingList pid hnd hmem
                unfold stats_identity at hid
                refine ⟨?_, ?_, ?_, ?_, ?_, ?_⟩
                · show s2.stats.total_created =
                    ((s2.stats.total_executed + 1) % U64) + s2.stats.total_rejected +
                    s2.stats.total_expired + (s2.stats.pending_count - 1)
                  rw [hfls2, Nat.mod_eq_of_lt hbex]
                  omega
                · show s2.stats.pending_count - 1 =
                    (List.filter (fun x => x != pid) s2.pendingList).length
                  rw [hfls2, hfll2]
                  omega
                · show (List.filter (fun x => x != pid) s2.pendingList).Nodup
                  rw [hfll2]
                  exact filter_ne_nodup pid hnd
                · intro q r hq hrex
                  have hq2 : s2.proposals q = some r := hq
                  rw [hflp2] at hq2
                  show q ∈ List.filter (fun x => x != pid) s2.pendingList
                  rw [hfll2, mem_filter_ne]
                  by_cases hqp : q = pid
                  · subst hqp
                    simp [setFn] at hq2
                    rw [← hq2] at hrex
                    simp at hrex
                  · simp [setFn, hqp] at hq2
                    exact ⟨hA q r hq2 hrex, hqp⟩
                · intro q hq
                  have hq2 : q ∈ List.filter (fun x => x != pid) s2.pendingList := hq
                  rw [hfll2, mem_filter_ne] at hq2
                  show (s2.proposals q).isSome
                  rw [hflp2]
                  simpa [setFn, hq2.2] using hB q hq2.1
                · intro q hcq
                  have hcq2 : s.proposalCounter ≤ q := by
                    have : s2.proposalCounter ≤ q := hcq
                    rwa [hflc2] at this
                  show s2.proposals q = none
                  rw [hflp2]
                  by_cases hqp : q = pid
                  · subst hqp
                    exact absurd (hF _ hcq2) (by simp [hp])
                  · simpa [setFn, hqp] using hF q hcq2

theorem reject_inv (env : Env) (s : State) (rejecter : Address) (pid : Nat)
    (hInv : StateInv s)
    (hbrj : s.stats.total_rejected + 1 < U64)
    (hbxp : s.stats.total_expired + 1 < U64) :
    StateInv (reject_proposal env s rejecter pid).1 := by
  unfold reject_proposal
  split
  · exact hInv
  · split
    · exact hInv
    case h_2 p hp =>
      split
      · exact hInv
      case isFalse hexec =>
        split
        case isTrue hexp =>
          exact cleanup_one_inv hInv hp (by simpa using hexec) hbxp
        case isFalse hexp =>
          split
          · exact hInv
          · split
            · exact hInv
            · simp only []
              split
              · exact hInv
              case h_2 cfg hms =>
                split
                case isTrue hthr =>
                  obtain ⟨hid, hlen, hnd, hA, hB, hF⟩ := hInv
                  have hex : p.executed = false := by simpa using hexec
                  have hmem : pid ∈ s.pendingList := hA pid p hp hex
                  have hl := filter_ne_length s.pendingList pid hnd hmem
                  unfold stats_identity at hid
                  refine ⟨?_, ?_, ?_, ?_, ?_, ?_⟩
                  · show s.stats.total_created = s.stats.total_executed +
                      ((s.stats.total_rejected + 1) % U64) + s.stats.total_expired +
                      (s.stats.pending_count - 1)
                    rw [Nat.mod_eq_of_lt hbrj]
                    omega
                  · show s.stats.pending_count - 1 =
                      (List.filter (fun x => x != pid) s.pendingList).length
                    omega
                  · exact filter_ne_nodup pid hnd
                  · intro q r hq hrex
                    have hq2 : setFn s.proposals pid none q = some r := hq
                    show q ∈ List.filter (fun x => x != pid) s.pendingList
                    rw [mem_filter_ne]
                    by_cases hqp : q = pid
                    · subst hqp
                      simp [setFn] at hq2
                    · simp [setFn, hqp] at hq2
                      exact ⟨hA q r hq2 hrex, hqp⟩
                  · intro q hq
                    have hq2 : q ∈ List.filter (fun x => x != pid) s.pendingList := hq
                    rw [mem_filter_ne] at hq2
                    show (setFn s.proposals pid none q).isSome
                    simpa [setFn, hq2.2] using hB q hq2.1
                  · intro q hcq
                    show setFn s.proposals pid none q = none
                    by_cases hqp : q = pid
                    · simp [setFn, hqp]
                    · simpa [setFn, hqp] using hF q hcq
                case isFalse hthr =>
                  exact update_record_inv hInv hp (by simpa using hexec)
                    (by simpa using hexec)

theorem approve_inv (env : Env) (s : State) (approver : Address) (pid : Nat)
    (hInv : StateInv s)
    (hbex : s.stats.total_executed + 1 < U64)
    (hbxp : s.stats.total_expired + 1 < U64) :
    StateInv (approve_proposal env s approver pid).1 := by
  unfold approve_proposal
  split
  · exact hInv
  · split
    · exact hInv
    case h_2 p hp =>
      split
      · exact hInv
      case isFalse hexec =>
        split
        case isTrue hexp =>
          exact cleanup_one_inv hInv hp (by simpa using hexec) hbxp
        case isFalse hexp =>
          split
          · exact hInv
          · split
            · exact hInv
            · simp only []
              have hInv1 : StateInv { s with
                  proposals := setFn s.proposals pid
                    (some { p with approvals := p.approvals ++ [approver] }) } :=
                update_record_inv hInv hp (by simpa using hexec)
                  (by simpa using hexec)
              split
              · exact execute_inv env _ pid hInv1 hbex hbxp
              · exact hInv1

theorem create_record_inv (s : State) (np : PendingProposal)
    (hInv : StateInv s) (hexn : np.executed = false)
    (hbcr : s.stats.total_created + 1 < U64)
    (hbpc : s.stats.pending_count + 1 < U32)
    (hbct : s.proposalCounter + 1 < U64) :
    StateInv { s with
      proposals := setFn s.proposals s.proposalCounter (some np)
      proposalCounter := (s.proposalCounter + 1) % U64
      pendingList := s.pendingList ++ [s.proposalCounter]
      stats := { s.stats with
        total_created := (s.stats.total_created + 1) % U64
        pending_count := (s.stats.pending_count + 1) % U32 } } := by
  obtain ⟨hid, hlen, hnd, hA, hB, hF⟩ := hInv
  unfold stats_identity at hid
  have hfresh : s.proposals s.proposalCounter = none := hF _ (Nat.le_refl _)
  have hnm : s.proposalCounter ∉ s.pendingList := by
    intro hmem
    have := hB _ hmem
    rw [hfresh] at this
    simp at this
  refine ⟨?_, ?_, ?_, ?_, ?_, ?_⟩
  · show (s.stats.total_created + 1) % U64 = s.stats.total_executed +
      s.stats.total_rejected + s.stats.total_expired +
      ((s.stats.pending_count + 1) % U32)
    rw [Nat.mod_eq_of_lt hbcr, Nat.mod_eq_of_lt hbpc]
    omega
  · show (s.stats.pending_count + 1) % U32 =
      (s.pendingList ++ [s.proposalCounter]).length
    rw [Nat.mod_eq_of_lt hbpc]
    simp [List.length_append]
    omega
  · exact nodup_concat_of_not_mem hnd hnm
  · intro q r hq hrex
    have hq2 : setFn s.proposals s.proposalCounter (some np) q = some r := hq
    show q ∈ s.pendingList ++ [s.proposalCounter]
    rw [List.mem_append]
    by_cases hqp : q = s.proposalCounter
    · right
      simp [hqp]
    · left
      simp [setFn, hqp] at hq2
      exact hA q r hq2 hrex
  · intro q hq
    have hq2 : q ∈ s.pendingList ++ [s.proposalCounter] := hq
    rw [List.mem_append] at hq2
    show (setFn s.proposals s.proposalCounter (some np) q).isSome
    by_cases hqp : q = s.proposalCounter
    · simp [setFn, hqp]
    · rcases hq2 with h | h
      · simpa [setFn, hqp] using hB q h
      · rw [List.mem_singleton] at h
        exact absurd h hqp
  · intro q hcq
    have hcq2 : (s.proposalCounter + 1) % U64 ≤ q := hcq
    rw [Nat.mod_eq_of_lt hbct] at hcq2
    show setFn s.proposals s.proposalCounter (some np) q = none
    have hqp : ¬ q = s.proposalCounter := by omega
    simpa [setFn, hqp] using hF q (by omega)

theorem create_inv (env : Env) (s : State) (proposer : Address)
    (action : ProposalAction) (hInv : StateInv s)
    (hbcr : s.stats.total_created + 1 < U64)
    (hbpc : s.stats.pending_count + 1 < U32)
    (hbct : s.proposalCounter + 1 < U64)
    (hbex : s.stats.total_executed + 1 < U64)
    (hbxp : s.stats.total_expired + 1 < U64) :
    StateInv (create_proposal env s proposer action).1 := by
  unfold create_proposal
  split
  · exact hInv
  · split
    · exact hInv
    case h_2 cfg hms =>
      split
      · exact hInv
      case isFalse hmax =>
        simp only []
        split
        case isTrue htl =>
          rw [if_neg (by simp)]
          exact create_record_inv s _ hInv rfl hbcr hbpc hbct
        case isFalse htl =>
          have hInv2 := create_record_inv s
            { id := s.proposalCounter
              proposer := proposer
              action := action
              proposal_type := action.classify_type
              approvals := [proposer]
              rejections := []
              executed := false
              created_at := env.timestamp
              expiry := (env.timestamp + cfg.proposal_expiry_duration) % U64
              time_lock_until := none
              required_signatures := cfg.get_required_signatures action.classify_type }
            hInv rfl hbcr hbpc hbct
          split
          case isTrue hcond =>
            split
            case h_1 s2 e hE =>
              have h3 := execute_inv env _ s.proposalCounter hInv2 hbex hbxp
              rw [hE] at h3
              exact h3
            case h_2 s2 a hE =>
              have h3 := execute_inv env _ s.proposalCounter hInv2 hbex hbxp
              rw [hE] at h3
              exact h3
          case isFalse hcond =>
            exact hInv2

theorem cleanup_fold_inv (env : Env) :
    ∀ (l : List Nat) (s : State) (c : Nat),
      StateInv s → s.stats.total_expired + s.pendingList.length < U64 →
      StateInv (l.foldl (cleanup_step env) (s, c)).1 ∧
      ((l.foldl (cleanup_step env) (s, c)).1).stats.total_expired +
        ((l.foldl (cleanup_step env) (s, c)).1).pendingList.length < U64
  | [], s, c, hInv, hb => ⟨hInv, hb⟩
  | pid :: t, s, c, hInv, hb => by
    rw [List.foldl_cons]
    have hstep : StateInv (cleanup_step env (s, c) pid).1 ∧
        ((cleanup_step env (s, c) pid).1).stats.total_expired +
          ((cleanup_step env (s, c) pid).1).pendingList.length < U64 := by
      unfold cleanup_step
      split
      case h_1 p hp =>
        split
        case isTrue hc =>
          have hp2 : s.proposals pid = some p := hp
          have hex : p.executed = false := hc.2
          obtain ⟨hid, hlen, hnd, hA, hB, hF⟩ := hInv
          have hmem : pid ∈ s.pendingList := hA pid p hp2 hex
          have hl := filter_ne_length s.pendingList pid hnd hmem
          have hb1 : s.stats.total_expired + 1 < U64 := by omega
          constructor
          · exact cleanup_one_inv ⟨hid, hlen, hnd, hA, hB, hF⟩ hp2 hex hb1
          · show ((s.stats.total_expired + 1) % U64) +
              (List.filter (fun x => x != pid) s.pendingList).length < U64
            rw [Nat.mod_eq_of_lt (by omega)]
            omega
        case isFalse hc => exact ⟨hInv, hb⟩
      case h_2 => exact ⟨hInv, hb⟩
    rcases hF2 : cleanup_step env (s, c) pid with ⟨s2, c2⟩
    rw [hF2] at hstep
    exact cleanup_fold_inv env t s2 c2 hstep.1 hstep.2

theorem cleanup_inv (env : Env) (s : State) (hInv : StateInv s)
    (hb : s.stats.total_expired + s.pendingList.length < U64) :
    StateInv (cleanup_expired_proposals env s).1 := by
  unfold cleanup_expired_proposals
  exact (cleanup_fold_inv env s.pendingList s 0 hInv hb).1

theorem cancel_breaks_identity (s : State) (proposer : Address) (pid : Nat)
    (hInv : StateInv s)
    (hok : (cancel_proposal s proposer pid).2 = .ok ()) :
    ((cancel_proposal s proposer pid).1).stats.total_created =
      ((cancel_proposal s proposer pid).1).stats.total_executed +
      ((cancel_proposal s proposer pid).1).stats.total_rejected +
      ((cancel_proposal s proposer pid).1).stats.total_expired +
      ((cancel_proposal s proposer pid).1).stats.pending_count + 1 := by
  obtain ⟨hid, hlen, hnd, hA, hB, hF⟩ := hInv
  unfold stats_identity at hid
  rcases hc : cancel_proposal s proposer pid with ⟨s2, r2⟩
  rw [hc] at hok
  unfold cancel_proposal at hc
  split at hc
  · rw [Prod.mk.injEq] at hc
    rw [← hc.2] at hok
    simp at hok
  case h_2 p hp =>
    split at hc
    · rw [Prod.mk.injEq] at hc
      rw [← hc.2] at hok
      simp at hok
    · split at hc
      · rw [Prod.mk.injEq] at hc
        rw [← hc.2] at hok
        simp at hok
      case isFalse hexec =>
        rw [Prod.mk.injEq] at hc
        have hex : p.executed = false := by simpa using hexec
        have hmem : pid ∈ s.pendingList := hA pid p hp hex
        have hl := filter_ne_length s.pendingList pid hnd hmem
        rw [← hc.1]
        show s.stats.total_created = s.stats.total_executed + s.stats.total_rejected +
          s.stats.total_expired + (s.stats.pending_count - 1) + 1
        omega

theorem StateInv_stNeedsThree : StateInv stNeedsThree := by
  refine ⟨rfl, rfl, by decide, ?_, ?_, ?_⟩
  · intro pid p h hex0
    by_cases hp0 : pid = 0
    · subst hp0
      show (0 : Nat) ∈ stNeedsThree.pendingList
      decide
    · exfalso
      have h2 : setFn emptyState.proposals 0 (some propNeedsThree) pid = some p := h
      simp [setFn, emptyState, hp0] at h2
  · intro q hq
    have hq2 : q ∈ [(0 : Nat)] := hq
    rw [List.mem_singleton] at hq2
    subst hq2
    show (setFn emptyState.proposals 0 (some propNeedsThree) 0).isSome
    simp [setFn]
  · intro q hq
    have hq2 : (1 : Nat) ≤ q := hq
    have hne : ¬ q = 0 := by omega
    show setFn emptyState.proposals 0 (some propNeedsThree) q = none
    simp [setFn, emptyState, hne]

/-- Claim C2 (amended): `StateInv` — whose first component is the spec's
identity `total_created = total_executed + total_rejected + total_expired +
pending_count` — is preserved by create, approve, reject, execute and the
cleanup sweep (absent counter wraparound), but a successful `cancel_proposal`
breaks the identity by exactly one: it decrements `pending_count` without
incrementing any terminal counter, so afterwards `total_created` exceeds the
sum by one. The original claim asserted the identity still holds after a
cancel, which is refuted by the counterexample. -/
theorem C2_stats_identity_amended :
    (∀ (env : Env) (s : State) (proposer : Address) (action : ProposalAction),
       StateInv s → NoOverflow s →
       StateInv (create_proposal env s proposer action).1) ∧
    (∀ (env : Env) (s : State) (approver : Address) (pid : Nat),
       StateInv s → NoOverflow s →
       StateInv (approve_proposal env s approver pid).1) ∧
    (∀ (env : Env) (s : State) (rejecter : Address) (pid : Nat),
       StateInv s → NoOverflow s →
       StateInv (reject_proposal env s rejecter pid).1) ∧
    (∀ (env : Env) (s : State) (pid : Nat),
       StateInv s → NoOverflow s →
       StateInv (execute_proposal env s pid).1) ∧
    (∀ (env : Env) (s : State),
       StateInv s → NoOverflow s →
       StateInv (cleanup_expired_proposals env s).1) ∧
    (∀ (s : State) (proposer : Address) (pid : Nat),
       StateInv s → (cancel_proposal s proposer pid).2 = .ok () →
       ((cancel_proposal s proposer pid).1).stats.total_created =
         ((cancel_proposal s proposer pid).1).stats.total_executed +
         ((cancel_proposal s proposer pid).1).stats.total_rejected +
         ((cancel_proposal s proposer pid).1).stats.total_expired +
         ((cancel_proposal s proposer pid).1).stats.pending_count + 1) := by
  refine ⟨?_, ?_, ?_, ?_, ?_, ?_⟩
  · intro env s proposer action hInv hOf
    obtain ⟨h1, h2, h3, h4, h5, h6⟩ := hOf
    exact create_inv env s proposer action hInv h1 h5 h6 h2 (by omega)
  · intro env s approver pid hInv hOf
    obtain ⟨h1, h2, h3, h4, h5, h6⟩ := hOf
    exact approve_inv env s approver pid hInv h2 (by omega)
  · intro env s rejecter pid hInv hOf
    obtain ⟨h1, h2, h3, h4, h5, h6⟩ := hOf
    exact reject_inv env s rejecter pid hInv h3 (by omega)
  · intro env s pid hInv hOf
    obtain ⟨h1, h2, h3, h4, h5, h6⟩ := hOf
    exact execute_inv env s pid hInv h2 (by omega)
  · intro env s hInv hOf
    obtain ⟨h1, h2, h3, h4, h5, h6⟩ := hOf
    exact cleanup_inv env s hInv (by omega)
  · intro s proposer pid hInv hok
    exact cancel_breaks_identity s proposer pid hInv hok

/-- Claim C2 witness: a successful cancel on a concrete one-proposal state
leaves the counters off by exactly one. -/
theorem C2_stats_identity_amended_witness :
    ((cancel_proposal stNeedsThree 1 0).1).stats.total_created =
      ((cancel_proposal stNeedsThree 1 0).1).stats.total_executed +
      ((cancel_proposal stNeedsThree 1 0).1).stats.total_rejected +
      ((cancel_proposal stNeedsThree 1 0).1).stats.total_expired +
      ((cancel_proposal stNeedsThree 1 0).1).stats.pending_count + 1 :=
  C2_stats_identity_amended.2.2.2.2.2 stNeedsThree 1 0 StateInv_stNeedsThree rfl

/-- Claim C2 counterexample: after `initialize_multisig`, one `create_proposal`
and one successful `cancel_proposal`, the stored statistics violate the
claimed identity (`total_created = 1` but every other counter is zero). -/
theorem C2_counterexample_cancel_breaks_identity :
    (cancel_proposal stCreated 1 0).2 = .ok () ∧
    ¬ stats_identity ((cancel_proposal stCreated 1 0).1).stats := by
  constructor
  · rfl
  · unfold stats_identity
    decide

theorem voteInv_congr {s t : State} (h : VoteInv s)
    (hp : t.proposals = s.proposals) : VoteInv t := by
  unfold VoteInv at h ⊢
  rw [hp]
  exact h

theorem voteInv_set {s : State} (pid : Nat) (o : Option PendingProposal)
    (h : VoteInv s)
    (ho : ∀ r, o = some r → r.approvals.Nodup ∧ r.rejections.Nodup ∧
        ∀ a, a ∈ r.approvals → a ∉ r.rejections) :
    VoteInv { s with proposals := setFn s.proposals pid o } := by
  intro q r hq
  have hq2 : setFn s.proposals pid o q = some r := hq
  by_cases hqp : q = pid
  · subst hqp
    simp [setFn] at hq2
    exact ho r hq2
  · simp [setFn, hqp] at hq2
    exact h q r hq2

theorem cleanup_one_vote {s : State} (pid : Nat) (h : VoteInv s) :
    VoteInv (cleanup_expired_proposal s pid) :=
  voteInv_congr (voteInv_set pid none h (by intro r hr; cases hr)) rfl

theorem execute_vote (env : Env) (s : State) (pid : Nat) (h : VoteInv s) :
    VoteInv (execute_proposal env s pid).1 := by
  unfold execute_proposal
  split
  · exact h
  case h_2 p hp =>
    split
    · exact h
    · split
      case isTrue hexp => exact cleanup_one_vote pid h
      case isFalse hexp =>
        split
        · exact h
        · split
          · exact h
          · simp only []
            have hs1 : VoteInv { s with
                proposals := setFn s.proposals pid
                  (some { p with executed := true }) } := by
              refine voteInv_set pid _ h ?_
              intro r hr
              injection hr with hr2
              subst hr2
              exact h pid p hp
            rcases hAp : applyAction env
                { s with
                  proposals := setFn s.proposals pid (some { p with executed := true }) }
                p.action with ⟨s2, r2⟩
            have hflp := (applyAction_fields env
                { s with
                  proposals := setFn s.proposals pid (some { p with executed := true }) }
                p.action).1
            rw [hAp] at hflp
            cases r2 with
            | error e => exact voteInv_congr hs1 hflp
            | ok a => exact voteInv_congr hs1 hflp

theorem approve_vote (env : Env) (s : State) (approver : Address) (pid : Nat)
    (h : VoteInv s) : VoteInv (approve_proposal env s approver pid).1 := by
  unfold approve_proposal
  split
  · exact h
  · split
    · exact h
    case h_2 p hp =>
      split
      · exact h
      · split
        case isTrue hexp => exact cleanup_one_vote pid h
        case isFalse hexp =>
          split
          · exact h
          case isFalse hna0 =>
            split
            · exact h
            case isFalse hnr0 =>
              simp only []
              have hna : approver ∉ p.approvals := by
                intro hmem
                exact hna0 (by simpa using hmem)
              have hnr : approver ∉ p.rejections := by
                intro hmem
                exact hnr0 (by simpa using hmem)
              obtain ⟨hnd1, hnd2, hdisj⟩ := h pid p hp
              have hs1 : VoteInv { s with
                  proposals := setFn s.proposals pid
                    (some { p with approvals := p.approvals ++ [approver] }) } := by
                refine voteInv_set pid _ h ?_
                intro r hr
                injection hr with hr2
                subst hr2
                refine ⟨nodup_concat_of_not_mem hnd1 hna, hnd2, ?_⟩
                intro a ha
                have ha2 : a ∈ p.approvals ++ [approver] := ha
                rw [List.mem_append, List.mem_singleton] at ha2
                rcases ha2 with h1 | h1
                · exact hdisj a h1
                · subst h1
                  exact hnr
              split
              · exact execute_vote env _ pid hs1
              · exact hs1

theorem reject_vote (env : Env) (s : State) (rejecter : Address) (pid : Nat)
    (h : VoteInv s) : VoteInv (reject_proposal env s rejecter pid).1 := by
  unfold reject_proposal
  split
  · exact h
  · split
    · exact h
    case h_2 p hp =>
      split
      · exact h
      · split
        case isTrue hexp => exact cleanup_one_vote pid h
        case isFalse hexp =>
          split
          · exact h
          case isFalse hnr0 =>
            split
            · exact h
            case isFalse hna0 =>
              simp only []
              have hna : rejecter ∉ p.approvals := by
                intro hmem
                exact hna0 (by simpa using hmem)
              have hnr : rejecter ∉ p.rejections := by
                intro hmem
                exact hnr0 (by simpa using hmem)
              obtain ⟨hnd1, hnd2, hdisj⟩ := h pid p hp
              split
              · exact h
              · split
                case isTrue hthr =>
                  exact voteInv_congr
                    (voteInv_set pid none h (by intro r hr; cases hr)) rfl
                case isFalse hthr =>
                  refine voteInv_set pid _ h ?_
                  intro r hr
                  injection hr with hr2
                  subst hr2
                  refine ⟨hnd1, nodup_concat_of_not_mem hnd2 hnr, ?_⟩
                  intro a ha
                  have ha2 : a ∈ p.approvals := ha
                  intro hcon
                  have hcon2 : a ∈ p.rejections ++ [rejecter] := hcon
                  rw [List.mem_append, List.mem_singleton] at hcon2
                  rcases hcon2 with h1 | h1
                  · exact hdisj a ha2 h1
                  · subst h1
                    exact hna ha2

theorem cancel_vote (s : State) (proposer : Address) (pid : Nat)
    (h : VoteInv s) : VoteInv (cancel_proposal s proposer pid).1 := by
  unfold cancel_proposal
  split
  · exact h
  · split
    · exact h
    · split
      · exact h
      · exact voteInv_congr
          (voteInv_set pid none h (by intro r hr; cases hr)) rfl

theorem cleanup_step_vote (env : Env) (acc : State × Nat) (pid : Nat)
    (h : VoteInv acc.1) : VoteInv (cleanup_step env acc pid).1 := by
  unfold cleanup_step
  split
  · split
    · exact cleanup_one_vote pid h
    · exact h
  · exact h

theorem cleanup_fold_vote (env : Env) :
    ∀ (l : List Nat) (acc : State × Nat), VoteInv acc.1 →
      VoteInv (l.foldl (cleanup_step env) acc).1
  | [], _, h => h
  | pid :: t, acc, h => by
    rw [List.foldl_cons]
    exact cleanup_fold_vote env t _ (cleanup_step_vote env acc pid h)

theorem cleanup_vote (env : Env) (s : State) (h : VoteInv s) :
    VoteInv (cleanup_expired_proposals env s).1 := by
  unfold cleanup_expired_proposals
  exact cleanup_fold_vote env s.pendingList (s, 0) h

theorem create_vote (env : Env) (s : State) (proposer : Address)
    (action : ProposalAction) (h : VoteInv s) :
    VoteInv (create_proposal env s proposer action).1 := by
  unfold create_proposal
  split
  · exact h
  · split
    · exact h
    case h_2 cfg hms =>
      split
      · exact h
      case isFalse hmax =>
        simp only []
        split
        case isTrue htl =>
          rw [if_neg (by simp)]
          refine voteInv_congr (voteInv_set s.proposalCounter _ h ?_) rfl
          intro r hr
          injection hr with hr2
          subst hr2
          refine ⟨List.nodup_singleton proposer, List.nodup_nil, ?_⟩
          intro a ha
          simp
        case isFalse htl =>
          have hs1 : VoteInv { s with
              proposals := setFn s.proposals s.proposalCounter
                (some
                  { id := s.proposalCounter
                    proposer := proposer
                    action := action
                    proposal_type := action.classify_type
                    approvals := [proposer]
                    rejections := []
                    executed := false
                    created_at := env.timestamp
                    expiry := (env.timestamp + cfg.proposal_expiry_duration) % U64
                    time_lock_until := none
                    required_signatures :=
                      cfg.get_required_signatures action.classify_type })
              proposalCounter := (s.proposalCounter + 1) % U64
              pendingList := s.pendingList ++ [s.proposalCounter]
              stats := { s.stats with
                total_created := (s.stats.total_created + 1) % U64
                pending_count := (s.stats.pending_count + 1) % U32 } } := by
            refine voteInv_congr (voteInv_set s.proposalCounter _ h ?_) rfl
            intro r hr
            injection hr with hr2
            subst hr2
            refine ⟨List.nodup_singleton proposer, List.nodup_nil, ?_⟩
            intro a ha
            simp
          split
          case isTrue hcond =>
            split
            case h_1 s2 e hE =>
              have h3 := execute_vote env _ s.proposalCounter hs1
              rw [hE] at h3
              exact h3
            case h_2 s2 a hE =>
              have h3 := execute_vote env _ s.proposalCounter hs1
              rw [hE] at h3
              exact h3
          case isFalse hcond =>
            exact hs1

theorem init_contract_proposals (s : State) (admin : Address)
    (config : Option AccessControlConfig) :
    (init_contract s admin config).1.proposals = s.proposals := by
  unfold init_contract
  split <;> rfl

theorem init_multisig_proposals (s : State) (admins : List Address)
    (req : Nat) (config : Option AccessControlConfig) :
    (init_multisig s admins req config).1.proposals = s.proposals := by
  unfold init_multisig
  simp only []
  repeat' split
  all_goals rfl

theorem set_role_proposals (env : Env) (s : State) (caller user : Address)
    (role : UserRole) :
    (set_role env s caller user role).1.proposals = s.proposals := by
  unfold set_role
  repeat' split
  all_goals rfl

theorem remove_role_proposals (s : State) (caller user : Address) :
    (remove_role s caller user).1.proposals = s.proposals := by
  unfold remove_role
  repeat' split
  all_goals rfl

theorem check_access_proposals (env : Env) (s : State) (user : Address)
    (role : UserRole) :
    (check_access env s user role).1.proposals = s.proposals := by
  unfold check_access log_access_attempt
  simp only []
  repeat' split
  all_goals rfl

theorem blacklist_user_proposals (s : State) (caller user : Address) :
    (blacklist_user s caller user).1.proposals = s.proposals := by
  unfold blacklist_user
  repeat' split
  all_goals rfl

theorem unblacklist_user_proposals (s : State) (caller user : Address) :
    (unblacklist_user s caller user).1.proposals = s.proposals := by
  unfold unblacklist_user
  repeat' split
  all_goals rfl

theorem update_config_proposals (s : State) (caller : Address)
    (config : AccessControlConfig) :
    (update_config s caller config).1.proposals = s.proposals := by
  unfold update_config
  repeat' split
  all_goals rfl

theorem pause_proposals (s : State) (caller : Address) :
    (pause s caller).1.proposals = s.proposals := by
  unfold pause
  repeat' split
  all_goals rfl

theorem unpause_proposals (s : State) (caller : Address) :
    (unpause s caller).1.proposals = s.proposals := by
  unfold unpause
  repeat' split
  all_goals rfl

theorem deactivate_emergency_mode_proposals (s : State) (caller : Address) :
    (deactivate_emergency_mode s caller).1.proposals = s.proposals := by
  unfold deactivate_emergency_mode
  repeat' split
  all_goals rfl

/-- Claim C6: vote-set integrity — every stored proposal's approval and
rejection lists are duplicate-free and mutually disjoint — is preserved by
every state-mutating entry point (`Step`), holds in the empty initial state,
and a second vote by the same account in either direction fails with
`AlreadyApproved` / `AlreadyRejected` leaving the state (hence both vote
sets) unchanged. -/
theorem C6_vote_sets_integrity :
    (∀ (env : Env) (s s2 : State), VoteInv s → Step env s s2 → VoteInv s2) ∧
    VoteInv emptyState ∧
    (∀ (env : Env) (s : State) (voter : Address) (pid : Nat)
        (p : PendingProposal),
      require_admin s voter = .ok () → s.proposals pid = some p →
      p.executed = false → ¬ p.expiry < env.timestamp →
      ((voter ∈ p.approvals → voter ∉ p.rejections →
         approve_proposal env s voter pid = (s, .error .AlreadyApproved) ∧
         reject_proposal env s voter pid = (s, .error .AlreadyApproved)) ∧
       (voter ∈ p.rejections → voter ∉ p.approvals →
         approve_proposal env s voter pid = (s, .error .AlreadyRejected) ∧
         reject_proposal env s voter pid = (s, .error .AlreadyRejected)))) := by
  refine ⟨?_, ?_, ?_⟩
  · intro env s s2 h hstep
    cases hstep with
    | init admin config => exact voteInv_congr h (init_contract_proposals s admin config)
    | initMs admins req config =>
        exact voteInv_congr h (init_multisig_proposals s admins req config)
    | setRole caller user role =>
        exact voteInv_congr h (set_role_proposals env s caller user role)
    | rmRole caller user => exact voteInv_congr h (remove_role_proposals s caller user)
    | checkAcc user role => exact voteInv_congr h (check_access_proposals env s user role)
    | blacklist caller user =>
        exact voteInv_congr h (blacklist_user_proposals s caller user)
    | unblacklist caller user =>
        exact voteInv_congr h (unblacklist_user_proposals s caller user)
    | updCfg caller config =>
        exact voteInv_congr h (update_config_proposals s caller config)
    | doPause caller => exact voteInv_congr h (pause_proposals s caller)
    | doUnpause caller => exact voteInv_congr h (unpause_proposals s caller)
    | create proposer action => exact create_vote env s proposer action h
    | approve approver pid => exact approve_vote env s approver pid h
    | reject rejecter pid => exact reject_vote env s rejecter pid h
    | execute pid => exact execute_vote env s pid h
    | cancel proposer pid => exact cancel_vote s proposer pid h
    | cleanup => exact cleanup_vote env s h
    | deactivateEmergency caller =>
        exact voteInv_congr h (deactivate_emergency_mode_proposals s caller)
  · intro pid p hp
    exact Option.noConfusion hp
  · intro env s voter pid p hadm hp hex hnx
    constructor
    · intro hva hvr
      constructor
      · unfold approve_proposal
        rw [hadm, hp]
        simp only [hex, Bool.false_eq_true, if_false, ite_false, hnx,
          contains_true_of_mem hva, if_true]
      · unfold reject_proposal
        rw [hadm, hp]
        simp only [hex, Bool.false_eq_true, if_false, ite_false, hnx,
          contains_false_of_not_mem hvr, contains_true_of_mem hva, if_true]
    · intro hvr hva
      constructor
      · unfold approve_proposal
        rw [hadm, hp]
        simp only [hex, Bool.false_eq_true, if_false, ite_false, hnx,
          contains_false_of_not_mem hva, contains_true_of_mem hvr, if_true]
      · unfold reject_proposal
        rw [hadm, hp]
        simp only [hex, Bool.false_eq_true, if_false, ite_false, hnx,
          contains_true_of_mem hvr, if_true]

/-- Claim C6 witness: a duplicate approval fails without mutation, and the
invariant survives a concrete `create_proposal` step. -/
theorem C6_vote_sets_integrity_witness :
    (approve_proposal envT stVoted 1 0 = (stVoted, .error .AlreadyApproved) ∧
     reject_proposal envT stVoted 1 0 = (stVoted, .error .AlreadyApproved)) ∧
    VoteInv (create_proposal envT stMsInit 1 (.SetRole 5 .Member)).1 :=
  ⟨(C6_vote_sets_integrity.2.2 envT stVoted 1 0 propVoted (by decide) rfl rfl
      (by decide)).1 (by decide) (by decide),
   C6_vote_sets_integrity.1 envT stMsInit _
     (fun pid p hp => by
       have h2 : stMsInit.proposals pid = some p := hp
       simp [stMsInit, init_multisig, emptyState, hasDuplicate,
         MultiSigConfig.validate] at h2)
     (Step.create envT stMsInit 1 (.SetRole 5 .Member))⟩

end ManageHub
